import Mathlib

/-
  Verification of the Requirement-Management-Tool reconciliation pipeline.

  Shallow embedding of:
    src/utils/text_processing.py   (normalize_unicode_text, clean_cell_value)
    src/utils/constants.py         (COLUMNS, COLUMN_MAPPING, COMPLIANCE_MAP, PDF_KEYWORDS)
    src/utils/base_processor.py    (Requirement, requirements_to_dataframe,
                                    normalize_dataframe, _normalize_compliance)
    src/processors/excel_processor.py (_standardize_columns, _map_columns,
                                    _display_column_mapping_menu, _dataframe_to_requirements)
    src/processors/pdf_processor.py (_group_requirement_blocks, _parse_requirement_block)
    src/read_pdf_streamlined.py    (group_requirement_blocks, parse_requirement_block)

  A pandas cell is modelled as `Option String`: `none` stands for NaN/missing,
  `some s` for the string s.  A DataFrame is an ordered association list of
  (column name, column cells).  Python string operations (strip, lower,
  isdigit, NFKD decomposition) are modelled faithfully on the character
  repertoire that occurs in this code base: ASCII, the characters of the
  manual replacement table of normalize_unicode_text, and U+0338.
-/

namespace RMT

abbrev Cell := Option String

/-- Python str whitespace on the modelled repertoire: the six ASCII whitespace
characters plus U+00A0, all of which Python's str.strip removes. -/
def pySpace (c : Char) : Bool :=
  c = ' ' || c = '\t' || c = '\n' || c = '\r' || c = '\x0b' || c = '\x0c' || c = ' '

/-- Python str.strip(): drop whitespace from both ends. -/
def pyStrip (l : List Char) : List Char :=
  ((l.dropWhile pySpace).reverse.dropWhile pySpace).reverse

def pyStripS (s : String) : String := ⟨pyStrip s.data⟩

/-- Python str.lower(), faithful on ASCII (the repertoire of all lookup keys). -/
def pyLowerS (s : String) : String := ⟨s.data.map Char.toLower⟩

/-- Python str.isdigit() restricted to ASCII digits (sufficient for menu input). -/
def pyIsDigit (l : List Char) : Bool := !l.isEmpty && l.all Char.isDigit

/-- Python int() on an all-digit ASCII string. -/
def digitsToNat (l : List Char) : Nat := l.foldl (fun n c => n * 10 + (c.toNat - 48)) 0

/-- Python `needle in hay` substring test. -/
def listContains (hay needle : List Char) : Bool :=
  hay.tails.any fun t => needle.isPrefixOf t

def strContains (hay needle : String) : Bool := listContains hay.data needle.data

/-- Python str.startswith. -/
def strStartsWith (s p : String) : Bool := p.data.isPrefixOf s.data

/-- Python str.replace(needle, repl) for a non-empty needle: replace every
(leftmost, non-overlapping) occurrence.  The fuel argument (instantiated
with the length of the scanned list, which strictly bounds the number of
steps) only makes the recursion structural. -/
def replaceAllGo (needle repl : List Char) : Nat → List Char → List Char
  | _, [] => []
  | 0, l => l
  | fuel + 1, c :: rest =>
    if needle ≠ [] ∧ needle.isPrefixOf (c :: rest) then
      repl ++ replaceAllGo needle repl fuel (rest.drop (needle.length - 1))
    else
      c :: replaceAllGo needle repl fuel rest

def replaceAll (needle repl hay : List Char) : List Char :=
  replaceAllGo needle repl hay.length hay

def strReplaceAll (s needle repl : String) : String :=
  ⟨replaceAll needle.data repl.data s.data⟩

/-- NFKD decomposition (unicodedata.normalize in Python) restricted to the
modelled repertoire.  ASCII characters and the replacement-table symbols
other than U+2260 and U+00A0 have no decomposition; U+2260 (not equal)
decomposes canonically to U+003D U+0338; U+00A0 decomposes to a space. -/
def nfkdChar (c : Char) : List Char :=
  if c.toNat ≤ 127 then [c]
  else if c = '≠' then ['=', '̸']
  else if c = ' ' then [' ']
  else [c]

/-- The manual replacement table of normalize_unicode_text, applied per
character (every key is a single character and every value is ASCII, so the
sequential str.replace calls of the source act independently per character). -/
def replChar (c : Char) : List Char :=
  if c.toNat ≤ 127 then [c]
  else if c = '≤' then ['<', '=']
  else if c = '≥' then ['>', '=']
  else if c = '≠' then ['!', '=']
  else if c = '±' then ['+', '-']
  else if c = '×' then ['x']
  else if c = '÷' then ['/']
  else if c = '−' then ['-']
  else if c = '–' then ['-']
  else if c = '—' then ['-', '-']
  else if c = '‘' then ['\'']
  else if c = '’' then ['\'']
  else if c = '“' then ['"']
  else if c = '”' then ['"']
  else if c = '•' then ['*']
  else if c = ' ' then [' ']
  else [c]

/-- src/utils/text_processing.py, normalize_unicode_text: NFKD-normalize,
encode to ASCII ignoring unrepresentable characters, then apply the manual
replacement table (in the source this table is applied AFTER the ASCII
filter, so it only ever sees ASCII input). -/
def normalize_unicode_text (s : String) : String :=
  ⟨((s.data.flatMap nfkdChar).filter fun c => c.toNat ≤ 127).flatMap replChar⟩

/-- src/utils/text_processing.py, clean_cell_value: None/NaN to "", otherwise
str(value).strip() then normalize_unicode_text. -/
def clean_cell_value (v : Cell) : String :=
  match v with
  | none => ""
  | some s => normalize_unicode_text (pyStripS s)

/-- src/utils/constants.py COLUMNS: the 16-column canonical schema. -/
def COLUMNS : List String :=
  ["Parent ID", "Requirement ID", "Type", "Sub-Type", "Title", "Definition",
   "Notes", "Remarks", "Responsibility", "Applicability", "Compliance",
   "Compliance Notes", "Verification", "Verification Notes",
   "Reference Document", "Original ESA Identifier"]

/-- src/utils/constants.py COLUMN_MAPPING (insertion order of the dict). -/
def COLUMN_MAPPING : List (String × String) :=
  [("req id", "Requirement ID"), ("requirement id", "Requirement ID"),
   ("id", "Requirement ID"), ("object identifier", "Requirement ID"),
   ("object id", "Requirement ID"), ("parent", "Parent ID"),
   ("parent id", "Parent ID"), ("parent requirement id", "Parent ID"),
   ("source", "Parent ID"), ("object type", "Type"), ("type", "Type"),
   ("sub-type", "Sub-Type"), ("subtype", "Sub-Type"), ("title", "Title"),
   ("definition", "Definition"), ("description", "Definition"),
   ("req description", "Definition"), ("note", "Notes"), ("notes", "Notes"),
   ("comments", "Notes"), ("remarks", "Remarks"),
   ("responsibility", "Responsibility"), ("responsible", "Responsibility"),
   ("owner", "Responsibility"), ("applicability", "Applicability"),
   ("applicable", "Applicability"), ("verification", "Verification"),
   ("verification method", "Verification"), ("compliance", "Compliance"),
   ("status", "Compliance"), ("compliance status", "Compliance"),
   ("compliance note", "Compliance Notes"),
   ("compliance notes", "Compliance Notes"),
   ("compliance comment", "Compliance Notes"),
   ("verification note", "Verification Notes"),
   ("verification notes", "Verification Notes"),
   ("verification comment", "Verification Notes"),
   ("reference", "Reference Document"),
   ("reference document", "Reference Document"),
   ("ref doc", "Reference Document"), ("document", "Reference Document"),
   ("original esa identifier", "Original ESA Identifier"),
   ("orginal esa identifier", "Original ESA Identifier"),
   ("esa identifier", "Original ESA Identifier"),
   ("esa id", "Original ESA Identifier")]

/-- src/utils/constants.py COMPLIANCE_MAP. -/
def COMPLIANCE_MAP : List (String × String) :=
  [("compliant", "C"), ("c", "C"), ("non-compliant", "NC"),
   ("non compliant", "NC"), ("noncompliant", "NC"), ("not-compliant", "NC"),
   ("not compliant", "NC"), ("notcompliant", "NC"), ("nc", "NC"),
   ("partially-compliant", "PC"), ("partially compliant", "PC"),
   ("partial-compliant", "PC"), ("partial compliant", "PC"),
   ("partially", "PC"), ("partial", "PC"), ("pc", "PC")]

/-- Python dict lookup on an association list whose keys are pairwise
distinct (all of the dict literals of constants.py are). -/
def alookup {α : Type} : List (String × α) → String → Option α
  | [], _ => none
  | (k, v) :: t, key => if k = key then some v else alookup t key

/-- src/utils/base_processor.py, BaseProcessor._normalize_compliance.
`none` stands for Python None; empty/None return "", otherwise the
strip-lowered value is looked up in COMPLIANCE_MAP and unknown tokens are
returned unchanged. -/
def normalize_compliance (v : Cell) : String :=
  match v with
  | none => ""
  | some s =>
    if s = "" then ""
    else (alookup COMPLIANCE_MAP (pyLowerS (pyStripS s))).getD s

/-! Tabular reconciliation engine (src/processors/excel_processor.py). -/

/-- A pandas DataFrame: ordered association list of (column name, cells). -/
abbrev STable := List (String × List Cell)

/-- Final normalized table: every cell is a genuine string. -/
abbrev NTable := List (String × List String)

def headersOf (t : STable) : List String := t.map Prod.fst

def colOf (t : STable) (c : String) : List Cell := (alookup t c).getD []

/-- Number of rows of a (uniform) DataFrame: length of its first column. -/
def nRows (t : STable) : Nat :=
  match t with
  | [] => 0
  | (_, col) :: _ => col.length

/-- ExcelProcessor._standardize_columns: strip, lowercase, remove quotes. -/
def standardizeHeader (s : String) : String :=
  ⟨((pyStrip s.data).map Char.toLower).filter fun c => c ≠ '"'⟩

def standardize_columns (t : STable) : STable :=
  t.map fun p => (standardizeHeader p.1, p.2)

/-- One recorded decision of a mapping run: an assignment of a source header
to a canonical target (with the flag telling whether it went through an
explicit overwrite confirmation), or a skip of a source header. -/
inductive MapEvent where
  | assign (tgt src : String) (confirmed : Bool)
  | skipCol (src : String)
deriving DecidableEq, Repr

/-- The (target, source) pairs of the assignment events, in order. -/
def assignSeq (evs : List MapEvent) : List (String × String) :=
  evs.filterMap fun e =>
    match e with
    | .assign t s _ => some (t, s)
    | .skipCol _ => none

/-- Python dict insertion: replace the value if the key is present, else append. -/
def dinsert (l : List (String × String)) (k v : String) : List (String × String) :=
  if (alookup l k).isSome then l.map (fun p => if p.1 = k then (k, v) else p)
  else l ++ [(k, v)]

/-- First pass of ExcelProcessor._map_columns: automatic mapping.  Returns
the unmapped source headers (in order) and the assignment events. -/
def autoPass : List String → List String × List MapEvent
  | [] => ([], [])
  | h :: t =>
    let r := autoPass t
    match alookup COLUMN_MAPPING h with
    | some tgt => (r.1, .assign tgt h false :: r.2)
    | none => (h :: r.1, r.2)

/-- assigned_targets after the automatic pass: dict target -> source. -/
def assignedOfEvents (evs : List MapEvent) : List (String × String) :=
  evs.foldl
    (fun acc e =>
      match e with
      | .assign t s _ => dinsert acc t s
      | .skipCol _ => acc)
    []

/-- Result of one call of ExcelProcessor._display_column_mapping_menu.
`target`/`skipped` are the returned pair, `confirmed` records whether the
return went through the explicit overwrite confirmation, `rest` is the
operator input not yet consumed, `prompts` the number of prompts issued. -/
structure MenuResult where
  target : Option String
  skipped : Bool
  confirmed : Bool
  rest : List (Option String)
  prompts : Nat
deriving DecidableEq, Repr

/-- ExcelProcessor._display_column_mapping_menu.  The operator input stream
is a list of responses; `none` is an interrupt (debug_input returns None),
and an exhausted stream behaves like end-of-file (debug_input returns
None as well).  `already` is the assigned_targets dict target -> source. -/
def menuLoop (already : List (String × String)) : List (Option String) → MenuResult
  | [] => ⟨none, true, false, [], 1⟩
  | none :: rest => ⟨none, true, false, rest, 1⟩
  | some raw :: rest =>
    let choice := pyStripS raw
    if choice = "" then
      let r := menuLoop already rest
      { r with prompts := r.prompts + 1 }
    else if pyLowerS choice = "skip" then ⟨none, true, false, rest, 1⟩
    else if pyIsDigit choice.data then
      let n := digitsToNat choice.data
      if 1 ≤ n ∧ n ≤ COLUMNS.length then
        let tgt := COLUMNS.getD (n - 1) ""
        if (alookup already tgt).isSome then
          match rest with
          | [] =>
            let r := menuLoop already ([] : List (Option String))
            { r with prompts := r.prompts + 2 }
          | confirm :: rest2 =>
            if confirm.map (fun s => pyLowerS (pyStripS s)) = some "y" then
              ⟨some tgt, false, true, rest2, 2⟩
            else
              let r := menuLoop already rest2
              { r with prompts := r.prompts + 2 }
        else ⟨some tgt, false, false, rest, 1⟩
      else
        let r := menuLoop already rest
        { r with prompts := r.prompts + 1 }
    else if choice ∈ COLUMNS then
      if (alookup already choice).isSome then
        match rest with
        | [] =>
          let r := menuLoop already ([] : List (Option String))
          { r with prompts := r.prompts + 2 }
        | confirm :: rest2 =>
          if confirm.map (fun s => pyLowerS (pyStripS s)) = some "y" then
            ⟨some choice, false, true, rest2, 2⟩
          else
            let r := menuLoop already rest2
            { r with prompts := r.prompts + 2 }
      else ⟨some choice, false, false, rest, 1⟩
    else
      let r := menuLoop already rest
      { r with prompts := r.prompts + 1 }

/-- Result of the second pass of _map_columns over the unmapped columns. -/
structure LoopResult where
  events : List MapEvent
  userMappings : List (String × String)
  prompts : Nat
deriving DecidableEq, Repr

/-- Second pass of ExcelProcessor._map_columns: for each unmapped source
column, consult the cached column_mappings first ('skip'/'' drops the
column; a cached canonical column is applied without re-confirmation;
anything else falls through), otherwise resolve interactively. -/
def unmappedLoop (cached : List (String × String)) :
    List String → List (String × String) → List (Option String) → LoopResult
  | [], _, _ => ⟨[], [], 0⟩
  | src :: srcs, assigned, ins =>
    match alookup cached src with
    | some ct =>
      if ct = "skip" ∨ ct = "" then
        let r := unmappedLoop cached srcs assigned ins
        ⟨.skipCol src :: r.events, (src, "skip") :: r.userMappings, r.prompts⟩
      else if ct ∈ COLUMNS then
        let r := unmappedLoop cached srcs (dinsert assigned ct src) ins
        ⟨.assign ct src false :: r.events, (src, ct) :: r.userMappings, r.prompts⟩
      else
        let m := menuLoop assigned ins
        if m.skipped then
          let r := unmappedLoop cached srcs assigned m.rest
          ⟨.skipCol src :: r.events, (src, "skip") :: r.userMappings,
           m.prompts + r.prompts⟩
        else
          let tgt := m.target.getD ""
          let r := unmappedLoop cached srcs (dinsert assigned tgt src) m.rest
          ⟨.assign tgt src m.confirmed :: r.events,
           (src, tgt) :: r.userMappings, m.prompts + r.prompts⟩
    | none =>
      let m := menuLoop assigned ins
      if m.skipped then
        let r := unmappedLoop cached srcs assigned m.rest
        ⟨.skipCol src :: r.events, (src, "skip") :: r.userMappings,
         m.prompts + r.prompts⟩
      else
        let tgt := m.target.getD ""
        let r := unmappedLoop cached srcs (dinsert assigned tgt src) m.rest
        ⟨.assign tgt src m.confirmed :: r.events,
         (src, tgt) :: r.userMappings, m.prompts + r.prompts⟩

/-- Last source assigned to target c, over the assignment sequence
(a later pandas column assignment replaces the earlier data). -/
def lastAssign (evs : List MapEvent) (c : String) : Option String :=
  (assignSeq evs).foldl (fun acc p => if p.1 = c then some p.2 else acc) none

/-- The mapped DataFrame after _map_columns: it starts as
pd.DataFrame(columns=COLUMNS), so all 16 canonical columns exist from the
start; the first column assignment sets the row index (pandas gives the
other columns NaN rows), and a column never assigned stays NaN (or empty
if no assignment at all happened); finally mapped_df[COLUMNS] reorders. -/
def buildMappedTable (df : STable) (evs : List MapEvent) : STable :=
  COLUMNS.map fun c =>
    (c,
     match lastAssign evs c with
     | some src => (colOf df src).map fun cell => some (clean_cell_value cell)
     | none =>
       if assignSeq evs ≠ [] then List.replicate (nRows df) (none : Cell)
       else [])

/-- Full result of ExcelProcessor._map_columns on a standardized DataFrame. -/
structure RunResult where
  events : List MapEvent
  userMappings : List (String × String)
  prompts : Nat
  table : STable
deriving DecidableEq, Repr

/-- ExcelProcessor._map_columns: automatic pass, then cached/interactive
resolution of unmapped columns, then completion and reordering.
`cached` is the column_mappings dict from the cache for this file's
fingerprint, `ins` the operator input stream. -/
def map_columns (df : STable) (cached : List (String × String))
    (ins : List (Option String)) : RunResult :=
  let ap := autoPass (headersOf df)
  let lr := unmappedLoop cached ap.1 (assignedOfEvents ap.2) ins
  let evs := ap.2 ++ lr.events
  ⟨evs, lr.userMappings, lr.prompts, buildMappedTable df evs⟩

/-! The unified Requirement record (src/utils/base_processor.py). -/

/-- The Requirement dataclass; fields are pandas cells because
ExcelProcessor._dataframe_to_requirements copies raw row values (which can
be NaN) into them.  Dataclass defaults are the empty string. -/
structure Requirement where
  requirement_id : Cell := some ""
  parent_id : Cell := some ""
  type : Cell := some ""
  sub_type : Cell := some ""
  title : Cell := some ""
  definition : Cell := some ""
  notes : Cell := some ""
  remarks : Cell := some ""
  responsibility : Cell := some ""
  applicability : Cell := some ""
  compliance : Cell := some ""
  compliance_notes : Cell := some ""
  verification : Cell := some ""
  verification_notes : Cell := some ""
  reference_document : Cell := some ""
  original_esa_identifier : Cell := some ""
deriving DecidableEq, Repr

/-- Requirement.to_dict, in the source's key order. -/
def Requirement.toDict (r : Requirement) : List (String × Cell) :=
  [("Parent ID", r.parent_id), ("Requirement ID", r.requirement_id),
   ("Type", r.type), ("Sub-Type", r.sub_type), ("Title", r.title),
   ("Definition", r.definition), ("Notes", r.notes), ("Remarks", r.remarks),
   ("Responsibility", r.responsibility), ("Applicability", r.applicability),
   ("Compliance", r.compliance), ("Compliance Notes", r.compliance_notes),
   ("Verification", r.verification),
   ("Verification Notes", r.verification_notes),
   ("Reference Document", r.reference_document),
   ("Original ESA Identifier", r.original_esa_identifier)]

def dictGet (r : Requirement) (c : String) : Cell :=
  (alookup r.toDict c).getD none

/-- pandas row.get(c, ""): the default only applies when the column is
missing from the frame; otherwise the raw cell (possibly NaN) is returned. -/
def rowGet (t : STable) (c : String) (i : Nat) : Cell :=
  match alookup t c with
  | some col => col.getD i none
  | none => some ""

/-- One row of the mapped frame as a Requirement
(ExcelProcessor._dataframe_to_requirements, body of the iterrows loop). -/
def reqOfRow (t : STable) (i : Nat) : Requirement :=
  { requirement_id := rowGet t "Requirement ID" i,
    parent_id := rowGet t "Parent ID" i,
    type := rowGet t "Type" i,
    sub_type := rowGet t "Sub-Type" i,
    title := rowGet t "Title" i,
    definition := rowGet t "Definition" i,
    notes := rowGet t "Notes" i,
    remarks := rowGet t "Remarks" i,
    responsibility := rowGet t "Responsibility" i,
    applicability := rowGet t "Applicability" i,
    compliance := rowGet t "Compliance" i,
    compliance_notes := rowGet t "Compliance Notes" i,
    verification := rowGet t "Verification" i,
    verification_notes := rowGet t "Verification Notes" i,
    reference_document := rowGet t "Reference Document" i,
    original_esa_identifier := rowGet t "Original ESA Identifier" i }

def dataframe_to_requirements (t : STable) : List Requirement :=
  (List.range (nRows t)).map (reqOfRow t)

/-- BaseProcessor.requirements_to_dataframe: build a frame from the
to_dict rows; every to_dict provides all 16 canonical keys, so the
completion loop never fires, and the frame is reordered to COLUMNS. -/
def requirements_to_dataframe (reqs : List Requirement) : STable :=
  COLUMNS.map fun c => (c, reqs.map fun r => dictGet r c)

/-- One canonical column of BaseProcessor.normalize_dataframe: the cells
cleaned, the (already cleaned) Compliance column additionally normalized,
and a canonical column missing from the frame broadcast to "". -/
def normCol (t : STable) (c : String) : List String :=
  let raw :=
    match alookup t c with
    | some col => col.map clean_cell_value
    | none => List.replicate (nRows t) ""
  if c = "Compliance" then raw.map (fun s => normalize_compliance (some s)) else raw

/-- BaseProcessor.normalize_dataframe: clean every canonical column,
normalize the (already cleaned) Compliance column, fill canonical columns
missing from the frame with "", reorder to COLUMNS. -/
def normalize_dataframe (t : STable) : NTable :=
  COLUMNS.map fun c => (c, normCol t c)

/-- The reconciliation pipeline of process_single_file on an already loaded
DataFrame (src/requirements_processor.py lines 79-86): standardize and map
the columns (ExcelProcessor.extract_requirements), convert the rows to
Requirements and back to a frame, then normalize. -/
def reconcile (df : STable) (cached : List (String × String))
    (ins : List (Option String)) : NTable :=
  normalize_dataframe (requirements_to_dataframe (dataframe_to_requirements
    (map_columns (standardize_columns df) cached ins).table))

/-- Reading a reconciliation output back in as a source table. -/
def asTable (t : NTable) : STable := t.map fun p => (p.1, p.2.map some)

def colN (t : NTable) (c : String) : List String := (alookup t c).getD []

/-! Document block extractor (src/processors/pdf_processor.py). -/

/-- Closing condition of PDFProcessor._group_requirement_blocks: the line
starts with "Compliance Comment :" or contains the truncated variant. -/
def endsBlock (line : String) : Bool :=
  strStartsWith line "Compliance Comment :" || strContains line "ompliance Comment :"

/-- The loop of PDFProcessor._group_requirement_blocks, carrying the
`recording` flag and the current block.  A line starting with "ID :" always
starts a fresh block (the branch is checked before the recording branch, so
an in-progress block is dropped); while recording, other lines are appended
and a line satisfying endsBlock closes the block.  A block still open when
the lines run out is not returned. -/
def groupBlocksGo : List String → Bool → List String → List (List String)
  | [], _, _ => []
  | line :: rest, recording, cur =>
    if strStartsWith line "ID :" then groupBlocksGo rest true [line]
    else if recording then
      let cur2 := cur ++ [line]
      if endsBlock line then cur2 :: groupBlocksGo rest false []
      else groupBlocksGo rest true cur2
    else groupBlocksGo rest recording cur

def group_requirement_blocks (lines : List String) : List (List String) :=
  groupBlocksGo lines false []

/-- src/utils/constants.py PDF_KEYWORDS, in dict insertion order. -/
def PDF_KEYWORDS : List (String × String) :=
  [("ID :", "requirement_id"), ("Object Type :", "type"),
   ("Source :", "source"), ("Verification Method :", "verification"),
   ("Compliance :", "compliance"), ("Subsystem Allocation :", "allocation"),
   ("Justification & Comments :", "comments"),
   ("Compliance Comment :", "compliance_comment"),
   ("ompliance Comment :", "compliance_comment")]

/-- First keyword contained in the line (PDFProcessor._parse_requirement_block
iterates the KEYWORDS dict and breaks on the first `keyword in line` hit). -/
def firstMatchP (line : String) : Option (String × String) :=
  PDF_KEYWORDS.find? fun kv => strContains line kv.1

/-- Parser state of PDFProcessor._parse_requirement_block: the accumulated
field values and the two continuation flags. -/
structure PParseState where
  reqId : String := ""
  objectType : String := ""
  definition : String := ""
  source : String := ""
  verification : String := ""
  compliance : String := ""
  allocation : String := ""
  comments : String := ""
  complianceComment : String := ""
  defNext : Bool := false
  justNext : Bool := false
deriving DecidableEq, Repr

/-- Field update on a keyword hit.  Only the type keyword sets defNext and
only the comments keyword sets justNext; no keyword ever clears a flag. -/
def applyFieldP (st : PParseState) (field value : String) : PParseState :=
  if field = "requirement_id" then { st with reqId := value }
  else if field = "type" then { st with objectType := value, defNext := true }
  else if field = "source" then { st with source := value }
  else if field = "verification" then { st with verification := value }
  else if field = "compliance" then { st with compliance := value }
  else if field = "allocation" then { st with allocation := value }
  else if field = "comments" then { st with comments := value, justNext := true }
  else if field = "compliance_comment" then { st with complianceComment := value }
  else st

/-- One line of PDFProcessor._parse_requirement_block.  On a keyword hit the
keyword is removed from the line and the stripped remainder stored; on a
keyword-free line the line is appended (after a space) to the definition if
defNext is set AND to the comments if justNext is set. -/
def parseLineP (st : PParseState) (line : String) : PParseState :=
  match firstMatchP line with
  | some (kw, field) => applyFieldP st field (pyStripS (strReplaceAll line kw ""))
  | none =>
    let st1 :=
      if st.defNext then { st with definition := st.definition ++ " " ++ line }
      else st
    if st.justNext then { st1 with comments := st1.comments ++ " " ++ line }
    else st1

/-- PDFProcessor._parse_requirement_block: fold the lines, then build the
Requirement (PDF fields mapped onto the 16-column schema, narrative fields
stripped). -/
def parse_requirement_block (block : List String) : Requirement :=
  let st := block.foldl parseLineP {}
  { requirement_id := some st.reqId,
    type := some st.objectType,
    definition := some (pyStripS st.definition),
    verification := some st.verification,
    compliance := some st.compliance,
    compliance_notes := some (pyStripS st.complianceComment),
    notes := some (pyStripS st.comments),
    reference_document := some st.source,
    responsibility := some st.allocation }

/-! The superseded variant src/read_pdf_streamlined.py. -/

/-- PDFRequirementExtractor.group_requirement_blocks: same scanner, but an
"ID :" line seen while a block is in progress saves that block before
starting the new one, close happens on a starts-with test for both the full
and the truncated end sentinel, and a block still open at end of input is
flushed. -/
def groupBlocksStreamGo : List String → Bool → List String → List (List String)
  | [], _, cur => if cur ≠ [] then [cur] else []
  | line :: rest, recording, cur =>
    if strStartsWith line "ID :" then
      if cur ≠ [] then cur :: groupBlocksStreamGo rest true [line]
      else groupBlocksStreamGo rest true [line]
    else if recording then
      let cur2 := cur ++ [line]
      if strStartsWith line "Compliance Comment :" || strStartsWith line "ompliance Comment :" then
        cur2 :: groupBlocksStreamGo rest false []
      else groupBlocksStreamGo rest true cur2
    else groupBlocksStreamGo rest recording cur

def group_requirement_blocks_streamlined (lines : List String) : List (List String) :=
  groupBlocksStreamGo lines false []

/-- KEYWORD_MAPPINGS of PDFRequirementExtractor (same pairs as PDF_KEYWORDS). -/
def S_KEYWORDS : List (String × String) := PDF_KEYWORDS

/-- First keyword the line STARTS with (the streamlined parser uses
line.startswith, not containment). -/
def firstMatchS (line : String) : Option (String × String) :=
  S_KEYWORDS.find? fun kv => strStartsWith line kv.1

/-- Parser state of PDFRequirementExtractor.parse_requirement_block. -/
structure SParseState where
  fieldVals : List (String × Cell) := []
  defLines : List String := []
  comLines : List String := []
  collectingDef : Bool := false
  collectingCom : Bool := false
deriving DecidableEq, Repr

def dinsertCell (l : List (String × Cell)) (k : String) (v : Cell) :
    List (String × Cell) :=
  if (alookup l k).isSome then l.map (fun p => if p.1 = k then (k, v) else p)
  else l ++ [(k, v)]

/-- One line of PDFRequirementExtractor.parse_requirement_block.  On a
keyword hit BOTH collection flags are recomputed (each is true exactly when
the keyword is its trigger), "N/A" values are stored as None, and a
non-empty value on the trigger line itself starts the collection; on a
keyword-free line the line goes to the definition lines if collecting the
definition, else to the comment lines if collecting comments. -/
def sParseLine (st : SParseState) (line : String) : SParseState :=
  match firstMatchS line with
  | some (kw, fname) =>
    let value := pyStripS (strReplaceAll line kw "")
    let fv := dinsertCell st.fieldVals fname (if value = "N/A" then none else some value)
    let cd := kw = "Object Type :"
    let cc := kw = "Justification & Comments :"
    let dl := if value ≠ "" ∧ cd then st.defLines ++ [value] else st.defLines
    let cl :=
      if value ≠ "" ∧ ¬(value ≠ "" ∧ cd) ∧ cc then st.comLines ++ [value]
      else st.comLines
    ⟨fv, dl, cl, cd, cc⟩
  | none =>
    if st.collectingDef then { st with defLines := st.defLines ++ [line] }
    else if st.collectingCom then { st with comLines := st.comLines ++ [line] }
    else st

def sParseBlock (block : List String) : SParseState :=
  block.foldl sParseLine {}

/-! Helper lemmas about the dictionary model. -/

theorem alookup_mem {α : Type} (l : List (String × α)) (k : String) (v : α)
    (h : alookup l k = some v) : v ∈ l.map Prod.snd := by
  induction l with
  | nil => simp [alookup] at h
  | cons p t ih =>
    obtain ⟨k2, v2⟩ := p
    simp only [alookup] at h
    split at h
    · simp only [Option.some.injEq] at h
      simp [h]
    · simp [ih h]

theorem alookup_map_self {α : Type} (f : String → α) (ks : List String)
    (c : String) (hnd : ks.Nodup) (hc : c ∈ ks) :
    alookup (ks.map fun k => (k, f k)) c = some (f c) := by
  induction ks with
  | nil => simp at hc
  | cons k t ih =>
    simp only [List.map_cons, alookup]
    rcases List.mem_cons.mp hc with rfl | hmem
    · simp
    · have hk : k ≠ c := by
        rintro rfl
        exact (List.nodup_cons.mp hnd).1 hmem
      rw [if_neg hk]
      exact ih (List.nodup_cons.mp hnd).2 hmem

theorem alookup_map_key {α : Type} (σ : String → String) (f : String → α)
    (ks : List String) (c : String) (hnd : (ks.map σ).Nodup) (hc : c ∈ ks) :
    alookup (ks.map fun k => (σ k, f k)) (σ c) = some (f c) := by
  induction ks with
  | nil => simp at hc
  | cons k t ih =>
    simp only [List.map_cons, alookup]
    rcases List.mem_cons.mp hc with rfl | hmem
    · simp
    · have hk : σ k ≠ σ c := by
        intro he
        have : σ c ∈ t.map σ := List.mem_map_of_mem σ hmem
        rw [← he] at this
        exact (List.nodup_cons.mp hnd).1 this
      rw [if_neg hk]
      exact ih (List.nodup_cons.mp hnd).2 hmem

theorem getD_mem_or {α : Type} (l : List α) (i : Nat) (d : α) :
    l.getD i d = d ∨ l.getD i d ∈ l := by
  induction l generalizing i with
  | nil => simp
  | cons a t ih =>
    cases i with
    | zero => right; simp
    | succ n =>
      rcases ih n with h | h
      · left; simpa using h
      · right; simp only [List.getD_cons_succ]; exact List.mem_cons_of_mem a h

theorem range_map_getD {α : Type} (l : List α) (d : α) :
    (List.range l.length).map (fun i => l.getD i d) = l := by
  induction l with
  | nil => rfl
  | cons a t ih =>
    rw [List.length_cons, List.range_succ_eq_map, List.map_cons, List.map_map]
    simp only [List.getD_cons_zero, Function.comp_def, List.getD_cons_succ]
    rw [ih]

/-! Helper lemmas about Python string stripping and the ASCII filter. -/

theorem dropWhile_dropWhile (p : Char → Bool) (l : List Char) :
    (l.dropWhile p).dropWhile p = l.dropWhile p := by
  induction l with
  | nil => rfl
  | cons c t ih =>
    by_cases h : p c
    · simp [List.dropWhile_cons, h, ih]
    · simp [List.dropWhile_cons, h]

theorem head_dropWhile_not (p : Char → Bool) (l : List Char) :
    ∀ a, (l.dropWhile p).head? = some a → p a = false := by
  induction l with
  | nil => simp
  | cons c t ih =>
    intro a h
    by_cases hc : p c
    · rw [List.dropWhile_cons, if_pos hc] at h
      exact ih a h
    · rw [List.dropWhile_cons, if_neg hc] at h
      simp only [List.head?_cons, Option.some.injEq] at h
      rw [← h]
      simpa using hc

theorem dropWhile_eq_self_of_head (p : Char → Bool) (l : List Char)
    (h : ∀ a, l.head? = some a → p a = false) : l.dropWhile p = l := by
  cases l with
  | nil => rfl
  | cons c t => simp [List.dropWhile_cons, h c rfl]

theorem dropWhile_isSuffix (p : Char → Bool) (l : List Char) :
    l.dropWhile p <:+ l := by
  induction l with
  | nil => simp
  | cons c t ih =>
    by_cases h : p c
    · rw [List.dropWhile_cons, if_pos h]
      exact ih.trans (List.suffix_cons c t)
    · rw [List.dropWhile_cons, if_neg h]

theorem pyStrip_idem (l : List Char) : pyStrip (pyStrip l) = pyStrip l := by
  unfold pyStrip
  have hstep1 :
      ((l.dropWhile pySpace).reverse.dropWhile pySpace).reverse.dropWhile pySpace
        = ((l.dropWhile pySpace).reverse.dropWhile pySpace).reverse := by
    apply dropWhile_eq_self_of_head
    intro a ha
    rw [List.head?_reverse] at ha
    obtain ⟨w, hw⟩ := dropWhile_isSuffix pySpace (l.dropWhile pySpace).reverse
    have hne : (l.dropWhile pySpace).reverse.dropWhile pySpace ≠ [] := by
      intro h0
      rw [h0] at ha
      simp at ha
    have h2 : (l.dropWhile pySpace).reverse.getLast? = some a := by
      conv_lhs => rw [← hw]
      rw [List.getLast?_append_of_ne_nil _ hne]
      exact ha
    rw [List.getLast?_reverse] at h2
    exact head_dropWhile_not pySpace l a h2
  rw [hstep1, List.reverse_reverse, dropWhile_dropWhile]

theorem pyStripS_idem (s : String) : pyStripS (pyStripS s) = pyStripS s := by
  unfold pyStripS
  rw [pyStrip_idem]

theorem mem_pyStrip (l : List Char) (c : Char) (h : c ∈ pyStrip l) : c ∈ l := by
  unfold pyStrip at h
  rw [List.mem_reverse] at h
  have h2 := (dropWhile_isSuffix pySpace _).subset h
  rw [List.mem_reverse] at h2
  exact (dropWhile_isSuffix pySpace l).subset h2

def allAscii (l : List Char) : Bool := l.all fun c => c.toNat ≤ 127

theorem nfkdChar_ascii (c : Char) (h : c.toNat ≤ 127) : nfkdChar c = [c] := by
  simp [nfkdChar, h]

theorem replChar_ascii (c : Char) (h : c.toNat ≤ 127) : replChar c = [c] := by
  simp [replChar, h]

theorem flatMap_id_of {α : Type} (l : List α) (f : α → List α)
    (h : ∀ c ∈ l, f c = [c]) : l.flatMap f = l := by
  induction l with
  | nil => rfl
  | cons a t ih =>
    rw [List.flatMap_cons, h a (by simp), ih fun c hc => h c (by simp [hc])]
    rfl

theorem normalize_eq_filter (s : String) :
    normalize_unicode_text s = ⟨(s.data.flatMap nfkdChar).filter fun c => c.toNat ≤ 127⟩ := by
  unfold normalize_unicode_text
  congr 1
  apply flatMap_id_of
  intro c hc
  exact replChar_ascii c (of_decide_eq_true (List.mem_filter.mp hc).2)

theorem normalize_allAscii (s : String) :
    allAscii (normalize_unicode_text s).data = true := by
  rw [normalize_eq_filter]
  simp only [allAscii, List.all_eq_true, decide_eq_true_eq]
  intro c hc
  exact of_decide_eq_true (List.mem_filter.mp hc).2

theorem normalize_id_of_ascii (s : String) (h : allAscii s.data = true) :
    normalize_unicode_text s = s := by
  simp only [allAscii, List.all_eq_true, decide_eq_true_eq] at h
  rw [normalize_eq_filter]
  rw [flatMap_id_of _ _ fun c hc => nfkdChar_ascii c (h c hc)]
  rw [List.filter_eq_self.mpr fun c hc => decide_eq_true (h c hc)]

theorem allAscii_pyStrip (l : List Char) (h : allAscii l = true) :
    allAscii (pyStrip l) = true := by
  simp only [allAscii, List.all_eq_true] at h ⊢
  exact fun c hc => h c (mem_pyStrip l c hc)

/-! Cleaned-cell fixed points. -/

/-- A string is clean-fixed when clean_cell_value returns it unchanged. -/
def CleanFixed (s : String) : Prop := clean_cell_value (some s) = s

theorem clean_some_eq (s : String) :
    clean_cell_value (some s) = normalize_unicode_text (pyStripS s) := rfl

theorem clean_ascii (x : Cell) : allAscii (clean_cell_value x).data = true := by
  cases x with
  | none => rfl
  | some s => exact normalize_allAscii _

theorem cleanFixed_double (x : Cell) :
    CleanFixed (clean_cell_value (some (clean_cell_value x))) := by
  have hy : allAscii (clean_cell_value x).data = true := clean_ascii x
  have h1 : clean_cell_value (some (clean_cell_value x))
      = pyStripS (clean_cell_value x) := by
    rw [clean_some_eq]
    exact normalize_id_of_ascii _ (allAscii_pyStrip _ hy)
  rw [h1]
  unfold CleanFixed
  rw [clean_some_eq, pyStripS_idem]
  exact normalize_id_of_ascii _ (allAscii_pyStrip _ hy)

theorem cleanFixed_empty : CleanFixed "" := by
  unfold CleanFixed
  decide

/-- Shape of every cell of the mapped frame: NaN, the dataclass default "",
or the result of one clean_cell_value pass. -/
def OnceCleaned (cell : Cell) : Prop :=
  cell = none ∨ cell = some "" ∨ ∃ x, cell = some (clean_cell_value x)

theorem cleanFixed_of_once (cell : Cell) (h : OnceCleaned cell) :
    CleanFixed (clean_cell_value cell) := by
  rcases h with rfl | rfl | ⟨x, rfl⟩
  · exact cleanFixed_empty
  · have : clean_cell_value (some "") = "" := by decide
    rw [this]; exact cleanFixed_empty
  · exact cleanFixed_double x

/-! Compliance-normalization lemmas. -/

theorem compliance_value_mem (k v : String)
    (h : alookup COMPLIANCE_MAP k = some v) : v = "C" ∨ v = "NC" ∨ v = "PC" := by
  have hm := alookup_mem _ _ _ h
  simp only [COMPLIANCE_MAP, List.map_cons, List.map_nil, List.mem_cons,
    List.not_mem_nil, or_false] at hm
  tauto

theorem normalize_compliance_idem (x : Cell) :
    normalize_compliance (some (normalize_compliance x)) = normalize_compliance x := by
  match x with
  | none => rfl
  | some s =>
    by_cases hs : s = ""
    · subst hs; rfl
    · show normalize_compliance (some (normalize_compliance (some s))) = _
      rw [show normalize_compliance (some s)
            = (alookup COMPLIANCE_MAP (pyLowerS (pyStripS s))).getD s by
          simp [normalize_compliance, hs]]
      cases h : alookup COMPLIANCE_MAP (pyLowerS (pyStripS s)) with
      | none =>
        simp only [Option.getD_none]
        simp [normalize_compliance, hs, h]
      | some v =>
        simp only [Option.getD_some]
        rcases compliance_value_mem _ _ h with rfl | rfl | rfl <;> decide

theorem cleanFixed_normalize_compliance (s : String) (h : CleanFixed s) :
    CleanFixed (normalize_compliance (some s)) := by
  by_cases hs : s = ""
  · subst hs
    simpa [normalize_compliance] using cleanFixed_empty
  · rw [show normalize_compliance (some s)
        = (alookup COMPLIANCE_MAP (pyLowerS (pyStripS s))).getD s by
      simp [normalize_compliance, hs]]
    cases hl : alookup COMPLIANCE_MAP (pyLowerS (pyStripS s)) with
    | none => simpa using h
    | some v =>
      simp only [Option.getD_some]
      rcases compliance_value_mem _ _ hl with rfl | rfl | rfl <;>
        (unfold CleanFixed; decide)

/-- C9: normalize_compliance is stable under re-application for every input,
maps every listed synonym into the set of canonical compliance codes, maps
empty/None input to the empty string, and passes unknown tokens (those
whose strip-lowered form is not in COMPLIANCE_MAP) through unchanged. -/
theorem C9_compliance_closure :
    (∀ x : Cell,
      normalize_compliance (some (normalize_compliance x)) = normalize_compliance x)
    ∧ (∀ p ∈ COMPLIANCE_MAP,
        normalize_compliance (some p.1) = "C" ∨ normalize_compliance (some p.1) = "NC"
          ∨ normalize_compliance (some p.1) = "PC")
    ∧ normalize_compliance none = ""
    ∧ normalize_compliance (some "") = ""
    ∧ (∀ v : String, v ≠ "" →
        alookup COMPLIANCE_MAP (pyLowerS (pyStripS v)) = none →
        normalize_compliance (some v) = v) := by
  refine ⟨normalize_compliance_idem, by decide, rfl, rfl, ?_⟩
  intro v hv hl
  simp [normalize_compliance, hv, hl]

/-- C9 witness: the guarantees of C9_compliance_closure evaluated at the
unknown token "tbd" and at the synonym "Partially Compliant". -/
theorem C9_compliance_closure_witness :
    normalize_compliance (some "tbd") = "tbd"
    ∧ normalize_compliance (some (normalize_compliance (some "Partially Compliant")))
        = normalize_compliance (some "Partially Compliant") :=
  ⟨C9_compliance_closure.2.2.2.2 "tbd" (by decide) (by decide),
   C9_compliance_closure.1 (some "Partially Compliant")⟩

/-- C6 (evidence of the code bug): the ASCII-encode step of
normalize_unicode_text drops every symbol of the manual replacement table
before the table is consulted, so the documented replacements never happen:
the listed symbols map to "" (or, for the not-equal sign, to "=" via its
canonical decomposition), not to their documented ASCII spellings; only the
non-breaking space becomes a space (via NFKD), as documented. -/
theorem C6_replacement_table_dead :
    normalize_unicode_text "≤" = "" ∧ normalize_unicode_text "≤" ≠ "<="
    ∧ normalize_unicode_text "≥" = "" ∧ normalize_unicode_text "≥" ≠ ">="
    ∧ normalize_unicode_text "≠" = "=" ∧ normalize_unicode_text "≠" ≠ "!="
    ∧ normalize_unicode_text "±" = "" ∧ normalize_unicode_text "×" = ""
    ∧ normalize_unicode_text "÷" = "" ∧ normalize_unicode_text "–" = ""
    ∧ normalize_unicode_text "—" = "" ∧ normalize_unicode_text "‘" = ""
    ∧ normalize_unicode_text "’" = "" ∧ normalize_unicode_text "“" = ""
    ∧ normalize_unicode_text "”" = "" ∧ normalize_unicode_text "•" = ""
    ∧ normalize_unicode_text " " = " " := by
  decide

/-! Block-extractor invariants. -/

theorem groupBlocksGo_inv (lines : List String) :
    ∀ (recording : Bool) (cur : List String),
      (recording = true →
        cur ≠ [] ∧ ∀ h, cur.head? = some h → strStartsWith h "ID :" = true) →
      ∀ b ∈ groupBlocksGo lines recording cur,
        b ≠ [] ∧ (∀ h, b.head? = some h → strStartsWith h "ID :" = true)
          ∧ ∀ l, b.getLast? = some l → endsBlock l = true := by
  induction lines with
  | nil =>
    intro r c _ b hb
    simp [groupBlocksGo] at hb
  | cons line rest ih =>
    intro r c hinv b hb
    by_cases h1 : strStartsWith line "ID :"
    · rw [groupBlocksGo, if_pos h1] at hb
      refine ih true [line] ?_ b hb
      intro _
      refine ⟨by simp, ?_⟩
      intro h hh
      simp only [List.head?_cons, Option.some.injEq] at hh
      rw [← hh]
      exact h1
    · rw [groupBlocksGo, if_neg h1] at hb
      by_cases h2 : r = true
      · rw [if_pos h2] at hb
        obtain ⟨hcne, hchead⟩ := hinv h2
        by_cases h3 : endsBlock line
        · rw [if_pos h3] at hb
          rcases List.mem_cons.mp hb with rfl | hb2
          · refine ⟨by simp, ?_, ?_⟩
            · intro h hh
              obtain ⟨c0, ct, rfl⟩ := List.exists_cons_of_ne_nil hcne
              simp only [List.cons_append, List.head?_cons,
                Option.some.injEq] at hh
              rw [← hh]
              exact hchead c0 rfl
            · intro l hl
              rw [List.getLast?_concat] at hl
              simp only [Option.some.injEq] at hl
              rw [← hl]
              exact h3
          · exact ih false [] (by simp) b hb2
        · rw [if_neg h3] at hb
          refine ih true (c ++ [line]) ?_ b hb
          intro _
          refine ⟨by simp [hcne], ?_⟩
          intro h hh
          obtain ⟨c0, ct, rfl⟩ := List.exists_cons_of_ne_nil hcne
          simp only [List.cons_append, List.head?_cons, Option.some.injEq] at hh
          rw [← hh]
          exact hchead c0 rfl
      · rw [if_neg h2] at hb
        exact ih r c hinv b hb

/-- C10: every block returned by _group_requirement_blocks is non-empty,
starts with an "ID :" line, and ends with a line satisfying the end
condition (starts with "Compliance Comment :" or contains the truncated
variant); consequently a block left open at end of input or interrupted by
a new "ID :" line is never returned (it lacks a closing line). -/
theorem C10_block_shape (lines : List String) (b : List String)
    (hb : b ∈ group_requirement_blocks lines) :
    b ≠ [] ∧ (∀ h, b.head? = some h → strStartsWith h "ID :" = true)
      ∧ ∀ l, b.getLast? = some l → endsBlock l = true :=
  groupBlocksGo_inv lines false [] (by simp) b hb

/-- C10 witness: the invariant evaluated on a concrete two-line stream. -/
theorem C10_block_shape_witness :
    (["ID : R9", "Compliance Comment : done"] : List String) ≠ []
      ∧ (∀ h, (["ID : R9", "Compliance Comment : done"] : List String).head? = some h →
          strStartsWith h "ID :" = true)
      ∧ ∀ l, (["ID : R9", "Compliance Comment : done"] : List String).getLast? = some l →
          endsBlock l = true :=
  C10_block_shape ["ID : R9", "Compliance Comment : done"]
    ["ID : R9", "Compliance Comment : done"] (by decide)

/-- C5 counterexample: on the stream below, the "ID : R2" line arriving
while the extractor is Recording is NOT appended to the current block; it
discards the open block ["ID : R1", "x"] and starts a new one, so the
output is a single two-line block rather than the single four-line block
the claim's transition table ("Recording + any line → append to current
block"; "a new block is only started from Idle") would produce. -/
theorem C5_claim_false :
    group_requirement_blocks ["ID : R1", "x", "ID : R2", "Compliance Comment : ok"]
        = [["ID : R2", "Compliance Comment : ok"]]
    ∧ group_requirement_blocks ["ID : R1", "x", "ID : R2", "Compliance Comment : ok"]
        ≠ [["ID : R1", "x", "ID : R2", "Compliance Comment : ok"]] := by
  decide

/-- C5 (amended): the actual transition table of _group_requirement_blocks:
a line starting with "ID :" always restarts the current block (from either
state, discarding any in-progress block); while Recording, any other line
is appended, and the block is closed exactly when the line starts with
"Compliance Comment :" or CONTAINS "ompliance Comment :"; other lines in
Idle are dropped. -/
theorem C5_amended_transitions (recording : Bool) (cur : List String)
    (line : String) (rest : List String) :
    (strStartsWith line "ID :" = true →
      groupBlocksGo (line :: rest) recording cur = groupBlocksGo rest true [line])
    ∧ (strStartsWith line "ID :" = false → recording = true → endsBlock line = true →
      groupBlocksGo (line :: rest) recording cur
        = (cur ++ [line]) :: groupBlocksGo rest false [])
    ∧ (strStartsWith line "ID :" = false → recording = true → endsBlock line = false →
      groupBlocksGo (line :: rest) recording cur = groupBlocksGo rest true (cur ++ [line]))
    ∧ (strStartsWith line "ID :" = false → recording = false →
      groupBlocksGo (line :: rest) recording cur = groupBlocksGo rest false cur) := by
  refine ⟨fun h1 => ?_, fun h1 h2 h3 => ?_, fun h1 h2 h3 => ?_, fun h1 h2 => ?_⟩
  · rw [groupBlocksGo, if_pos h1]
  · rw [groupBlocksGo, if_neg (by simp [h1]), if_pos h2, if_pos h3]
  · rw [groupBlocksGo, if_neg (by simp [h1]), if_pos h2, if_neg (by simp [h3])]
  · rw [groupBlocksGo, if_neg (by simp [h1]), if_neg (by simp [h2]), h2]

/-- C5 amended witness: the restart and close transitions evaluated on
concrete states. -/
theorem C5_amended_transitions_witness :
    groupBlocksGo ["ID : R2"] true ["ID : R1", "x"] = groupBlocksGo [] true ["ID : R2"]
    ∧ groupBlocksGo ["Compliance Comment : ok"] true ["ID : R2"]
        = ["ID : R2", "Compliance Comment : ok"] :: groupBlocksGo [] false [] :=
  ⟨(C5_amended_transitions true ["ID : R1", "x"] "ID : R2" []).1 (by decide),
   (C5_amended_transitions true ["ID : R2"] "Compliance Comment : ok" []).2.1
     (by decide) rfl (by decide)⟩

/-! Per-block field parser. -/

/-- C4 counterexample: in _parse_requirement_block the continuation flags
are never reset.  With the block below, the "Source :" label does NOT reset
the continuation pointer set by "Object Type :", so the following unlabeled
line is appended to the definition (the claim says it is appended to no
field); and after both the type and the comments labels have occurred, an
unlabeled line is appended to BOTH the definition and the comments (the
claim says at most one continuation field is active). -/
theorem C4_claim_false :
    (parse_requirement_block
        ["ID : R1", "Object Type : T", "Source : S", "stray"]).definition = some "stray"
    ∧ (parse_requirement_block
        ["ID : R1", "Object Type : T", "Source : S", "stray"]).definition ≠ some ""
    ∧ (parse_requirement_block
        ["ID : R1", "Object Type : T", "Justification & Comments : J", "x"]).definition
        = some "x"
    ∧ (parse_requirement_block
        ["ID : R1", "Object Type : T", "Justification & Comments : J", "x"]).notes
        = some "J x" := by
  decide

/-- C4 (amended): in PDFProcessor._parse_requirement_block the continuation
flags are sticky: no labeled line ever clears them, and on a keyword-free
line the line is appended to the definition whenever defNext is set and to
the comments whenever justNext is set (both when both are set).  Only the
streamlined variant behaves as the claim states: there every keyword line
recomputes the collection flags, so a keyword other than the type trigger
clears definition collection (and other than the comments trigger clears
comment collection). -/
theorem C4_amended_sticky (st : PParseState) (line : String) :
    (st.defNext = true → (parseLineP st line).defNext = true)
    ∧ (st.justNext = true → (parseLineP st line).justNext = true)
    ∧ (firstMatchP line = none → st.defNext = true → st.justNext = true →
        (parseLineP st line).definition = st.definition ++ " " ++ line
          ∧ (parseLineP st line).comments = st.comments ++ " " ++ line)
    ∧ (∀ (st2 : SParseState) (kw fname : String),
        firstMatchS line = some (kw, fname) →
        (kw ≠ "Object Type :" → (sParseLine st2 line).collectingDef = false)
          ∧ (kw ≠ "Justification & Comments :" →
              (sParseLine st2 line).collectingCom = false)) := by
  refine ⟨?_, ?_, ?_, ?_⟩
  · intro hd
    cases hfm : firstMatchP line with
    | some kv =>
      obtain ⟨kw, field⟩ := kv
      simp only [parseLineP, hfm]
      unfold applyFieldP
      split_ifs <;> simp [hd]
    | none =>
      simp only [parseLineP, hfm]
      split_ifs <;> simp [hd]
  · intro hj
    cases hfm : firstMatchP line with
    | some kv =>
      obtain ⟨kw, field⟩ := kv
      simp only [parseLineP, hfm]
      unfold applyFieldP
      split_ifs <;> simp [hj]
    | none =>
      simp only [parseLineP, hfm]
      split_ifs <;> simp [hj]
  · intro hfm hd hj
    simp only [parseLineP, hfm]
    simp [hd, hj]
  · intro st2 kw fname hfm
    simp only [sParseLine, hfm]
    constructor
    · intro hkw
      simp [hkw]
    · intro hkw
      simp [hkw]

/-- C4 amended witness: the sticky flags evaluated on a concrete state and
line, and the streamlined reset evaluated on a "Source :" line. -/
theorem C4_amended_sticky_witness :
    (parseLineP ⟨"R1", "T", "", "S", "", "", "", "", "", true, false⟩ "stray").defNext = true
    ∧ (sParseLine ⟨[], [], [], true, false⟩ "Source : S").collectingDef = false :=
  ⟨(C4_amended_sticky ⟨"R1", "T", "", "S", "", "", "", "", "", true, false⟩ "stray").1 rfl,
   ((C4_amended_sticky ⟨"R1", "T", "", "S", "", "", "", "", "", true, false⟩
        "Source : S").2.2.2
      ⟨[], [], [], true, false⟩ "Source :" "source" (by decide)).1 (by decide)⟩

theorem getD_mem_of_lt {α : Type} (l : List α) (i : Nat) (d : α) (h : i < l.length) :
    l.getD i d ∈ l := by
  induction l generalizing i with
  | nil => simp at h
  | cons a t ih =>
    cases i with
    | zero => simp
    | succ n =>
      simp only [List.getD_cons_succ]
      exact List.mem_cons_of_mem a (ih n (by simpa using h))

theorem menuLoop_spec (already : List (String × String)) (ins : List (Option String)) :
    (∀ t, (menuLoop already ins).target = some t →
      t ∈ COLUMNS ∧ ((alookup already t).isSome = true → (menuLoop already ins).confirmed = true))
    ∧ ((menuLoop already ins).skipped = false → ∃ t, (menuLoop already ins).target = some t) := by
  induction ins using menuLoop.induct already with
  | case1 => simp [menuLoop]
  | case2 rest => simp [menuLoop]
  | case3 raw rest choice hch ih =>
    have hch' : pyStripS raw = "" := hch
    rw [menuLoop.eq_def]
    simpa [hch'] using ih
  | case4 raw rest choice hch hskip =>
    have hch' : ¬ pyStripS raw = "" := hch
    have hskip' : pyLowerS (pyStripS raw) = "skip" := hskip
    rw [menuLoop.eq_def]
    simp [hch', hskip']
  | case5 raw choice hch hskip hdig n hrange tgt hcl ih =>
    have hch' : ¬ pyStripS raw = "" := hch
    have hskip' : ¬ pyLowerS (pyStripS raw) = "skip" := hskip
    have hdig' : pyIsDigit (pyStripS raw).data = true := hdig
    have hrange' : 1 ≤ digitsToNat (pyStripS raw).data
        ∧ digitsToNat (pyStripS raw).data ≤ COLUMNS.length := hrange
    have hcl' : (alookup already (COLUMNS.getD (digitsToNat (pyStripS raw).data - 1) "")).isSome = true := hcl
    rw [menuLoop.eq_def]
    simp [menuLoop, hch', hskip', hdig', hrange', hcl', -List.getD_eq_getElem?_getD]
  | case6 raw choice hch hskip hdig n hrange tgt hcl confirm rest2 hy =>
    have hch' : ¬ pyStripS raw = "" := hch
    have hskip' : ¬ pyLowerS (pyStripS raw) = "skip" := hskip
    have hdig' : pyIsDigit (pyStripS raw).data = true := hdig
    have hrange' : 1 ≤ digitsToNat (pyStripS raw).data
        ∧ digitsToNat (pyStripS raw).data ≤ COLUMNS.length := hrange
    have hcl' : (alookup already (COLUMNS.getD (digitsToNat (pyStripS raw).data - 1) "")).isSome = true := hcl
    have hy' : Option.map (fun s => pyLowerS (pyStripS s)) confirm = some "y" := hy
    have hmem : COLUMNS.getD (digitsToNat (pyStripS raw).data - 1) "" ∈ COLUMNS :=
      getD_mem_of_lt _ _ _ (by omega)
    rw [menuLoop.eq_def]
    simp [hch', hskip', hdig', hrange', hcl', hy', -List.getD_eq_getElem?_getD]
    exact hmem
  | case7 raw choice hch hskip hdig n hrange tgt hcl confirm rest2 hy ih =>
    have hch' : ¬ pyStripS raw = "" := hch
    have hskip' : ¬ pyLowerS (pyStripS raw) = "skip" := hskip
    have hdig' : pyIsDigit (pyStripS raw).data = true := hdig
    have hrange' : 1 ≤ digitsToNat (pyStripS raw).data
        ∧ digitsToNat (pyStripS raw).data ≤ COLUMNS.length := hrange
    have hcl' : (alookup already (COLUMNS.getD (digitsToNat (pyStripS raw).data - 1) "")).isSome = true := hcl
    have hy' : ¬ Option.map (fun s => pyLowerS (pyStripS s)) confirm = some "y" := hy
    rw [menuLoop.eq_def]
    simpa [hch', hskip', hdig', hrange', hcl', hy', -List.getD_eq_getElem?_getD] using ih
  | case8 raw rest choice hch hskip hdig n hrange tgt hncl =>
    have hch' : ¬ pyStripS raw = "" := hch
    have hskip' : ¬ pyLowerS (pyStripS raw) = "skip" := hskip
    have hdig' : pyIsDigit (pyStripS raw).data = true := hdig
    have hrange' : 1 ≤ digitsToNat (pyStripS raw).data
        ∧ digitsToNat (pyStripS raw).data ≤ COLUMNS.length := hrange
    have hncl' : ¬ (alookup already (COLUMNS.getD (digitsToNat (pyStripS raw).data - 1) "")).isSome = true := hncl
    have hmem : COLUMNS.getD (digitsToNat (pyStripS raw).data - 1) "" ∈ COLUMNS :=
      getD_mem_of_lt _ _ _ (by omega)
    rw [menuLoop.eq_def]
    simp [hch', hskip', hdig', hrange', hncl', -List.getD_eq_getElem?_getD]
    exact ⟨hmem, by simpa using hncl'⟩
  | case9 raw rest choice hch hskip hdig n hnrange ih =>
    have hch' : ¬ pyStripS raw = "" := hch
    have hskip' : ¬ pyLowerS (pyStripS raw) = "skip" := hskip
    have hdig' : pyIsDigit (pyStripS raw).data = true := hdig
    have hnrange' : ¬ (1 ≤ digitsToNat (pyStripS raw).data
        ∧ digitsToNat (pyStripS raw).data ≤ COLUMNS.length) := hnrange
    rw [menuLoop.eq_def]
    simpa [hch', hskip', hdig', hnrange', -List.getD_eq_getElem?_getD] using ih
  | case10 raw choice hch hskip hndig hmem hcl ih =>
    have hch' : ¬ pyStripS raw = "" := hch
    have hskip' : ¬ pyLowerS (pyStripS raw) = "skip" := hskip
    have hndig' : ¬ pyIsDigit (pyStripS raw).data = true := hndig
    have hmem' : pyStripS raw ∈ COLUMNS := hmem
    have hcl' : (alookup already (pyStripS raw)).isSome = true := hcl
    rw [menuLoop.eq_def]
    simp [menuLoop, hch', hskip', hndig', hmem', hcl']
  | case11 raw choice hch hskip hndig hmem hcl confirm rest2 hy =>
    have hch' : ¬ pyStripS raw = "" := hch
    have hskip' : ¬ pyLowerS (pyStripS raw) = "skip" := hskip
    have hndig' : ¬ pyIsDigit (pyStripS raw).data = true := hndig
    have hmem' : pyStripS raw ∈ COLUMNS := hmem
    have hcl' : (alookup already (pyStripS raw)).isSome = true := hcl
    have hy' : Option.map (fun s => pyLowerS (pyStripS s)) confirm = some "y" := hy
    rw [menuLoop.eq_def]
    simp [hch', hskip', hndig', hmem', hcl', hy']
  | case12 raw choice hch hskip hndig hmem hcl confirm rest2 hy ih =>
    have hch' : ¬ pyStripS raw = "" := hch
    have hskip' : ¬ pyLowerS (pyStripS raw) = "skip" := hskip
    have hndig' : ¬ pyIsDigit (pyStripS raw).data = true := hndig
    have hmem' : pyStripS raw ∈ COLUMNS := hmem
    have hcl' : (alookup already (pyStripS raw)).isSome = true := hcl
    have hy' : ¬ Option.map (fun s => pyLowerS (pyStripS s)) confirm = some "y" := hy
    rw [menuLoop.eq_def]
    simpa [hch', hskip', hndig', hmem', hcl', hy'] using ih
  | case13 raw rest choice hch hskip hndig hmem hncl =>
    have hch' : ¬ pyStripS raw = "" := hch
    have hskip' : ¬ pyLowerS (pyStripS raw) = "skip" := hskip
    have hndig' : ¬ pyIsDigit (pyStripS raw).data = true := hndig
    have hmem' : pyStripS raw ∈ COLUMNS := hmem
    have hncl' : ¬ (alookup already (pyStripS raw)).isSome = true := hncl
    rw [menuLoop.eq_def]
    simp [hch', hskip', hndig', hmem', hncl']
    simpa using hncl'
  | case14 raw rest choice hch hskip hndig hnmem ih =>
    have hch' : ¬ pyStripS raw = "" := hch
    have hskip' : ¬ pyLowerS (pyStripS raw) = "skip" := hskip
    have hndig' : ¬ pyIsDigit (pyStripS raw).data = true := hndig
    have hnmem' : ¬ pyStripS raw ∈ COLUMNS := hnmem
    rw [menuLoop.eq_def]
    simpa [hch', hskip', hndig', hnmem'] using ih

/-! Cancellation and overwrite behaviour of the interactive resolution. -/

/-- C3 counterexample: with two unmapped columns and an operator interrupt
(`none` response) at the first prompt, processing of the file is NOT
aborted: the cancelled column "foo" is recorded as a skip, a cache entry
("foo", "skip") IS written for it (user_column_mappings is saved at the end
of the pass), and processing continues — the next column "bar" is still
resolved interactively (to Title, whose data is copied).  This contradicts
both the "no result" outcome and the no-cache-write atomicity the claim
states for column-resolution cancellation. -/
theorem C3_claim_false :
    (map_columns (standardize_columns [("foo", [some "f1"]), ("bar", [some "b1"])])
        [] [none, some "Title"]).userMappings = [("foo", "skip"), ("bar", "Title")]
    ∧ alookup (map_columns (standardize_columns [("foo", [some "f1"]), ("bar", [some "b1"])])
        [] [none, some "Title"]).userMappings "foo" = some "skip"
    ∧ assignSeq (map_columns (standardize_columns [("foo", [some "f1"]), ("bar", [some "b1"])])
        [] [none, some "Title"]).events = [("Title", "bar")]
    ∧ colOf (map_columns (standardize_columns [("foo", [some "f1"]), ("bar", [some "b1"])])
        [] [none, some "Title"]).table "Title" = [some "b1"] := by
  decide

/-- C3 (amended): an interrupt during interactive column resolution is
handled as a skip of that single column: the menu returns immediately with
the skip flag, the column is recorded as ("src", "skip") in the mappings
that are saved to the cache at the end of the pass, and the loop continues
with the remaining unmapped columns.  Only cancellation during SHEET
selection aborts the file with no result. -/
theorem C3_amended_interrupt_is_skip (cached : List (String × String))
    (srcs : List String) (assigned : List (String × String)) (src : String)
    (ins : List (Option String)) (h : alookup cached src = none) :
    unmappedLoop cached (src :: srcs) assigned (none :: ins) =
      ⟨.skipCol src :: (unmappedLoop cached srcs assigned ins).events,
       (src, "skip") :: (unmappedLoop cached srcs assigned ins).userMappings,
       1 + (unmappedLoop cached srcs assigned ins).prompts⟩ := by
  rw [unmappedLoop]
  rw [h]
  rw [show menuLoop assigned (none :: ins) = ⟨none, true, false, ins, 1⟩ from rfl]
  simp [Nat.add_comm]

/-- C3 amended witness: the interrupt-is-skip step evaluated concretely. -/
theorem C3_amended_interrupt_is_skip_witness :
    unmappedLoop [] ["bar"] [] [none] =
      ⟨.skipCol "bar" :: (unmappedLoop [] ([] : List String) [] []).events,
       ("bar", "skip") :: (unmappedLoop [] ([] : List String) [] []).userMappings,
       1 + (unmappedLoop [] ([] : List String) [] []).prompts⟩ :=
  C3_amended_interrupt_is_skip [] [] [] "bar" [] rfl

/-- Number of assignment events that claim an already-claimed canonical
target without having gone through the overwrite confirmation. -/
def silentOverwritesGo (seen : List String) : List MapEvent → Nat
  | [] => 0
  | .assign t _ conf :: rest =>
    (if t ∈ seen ∧ conf = false then 1 else 0) + silentOverwritesGo (t :: seen) rest
  | .skipCol _ :: rest => silentOverwritesGo seen rest

def silentOverwrites (evs : List MapEvent) : Nat := silentOverwritesGo [] evs

/-- C2 counterexample: with the source headers "id" and "req id" both
present, the automatic pass assigns BOTH to "Requirement ID" with zero
prompts and zero confirmations (the second silently replaces the first),
and the cached path does the same (header "custom" cached to
"Requirement ID" silently overwrites the automatic claim).  So two source
headers claim the same canonical column with no overwrite confirmation,
contrary to the claim that every such path passes through one. -/
theorem C2_claim_false :
    assignSeq (map_columns (standardize_columns
        [("id", [some "1"]), ("req id", [some "2"])]) [] []).events
        = [("Requirement ID", "id"), ("Requirement ID", "req id")]
    ∧ silentOverwrites (map_columns (standardize_columns
        [("id", [some "1"]), ("req id", [some "2"])]) [] []).events = 1
    ∧ (map_columns (standardize_columns
        [("id", [some "1"]), ("req id", [some "2"])]) [] []).prompts = 0
    ∧ silentOverwrites (map_columns (standardize_columns
        [("id", [some "1"]), ("custom", [some "2"])])
        [("custom", "Requirement ID")] []).events = 1
    ∧ (map_columns (standardize_columns
        [("id", [some "1"]), ("custom", [some "2"])])
        [("custom", "Requirement ID")] []).prompts = 0 := by
  decide

/-- C2 (amended): only the INTERACTIVE path enforces confirmation: whenever
the column-mapping menu returns a target column that is already claimed in
assigned_targets, the return went through the explicit overwrite
confirmation (an operator response whose strip-lowered form is "y"); the
automatic and cached paths never consult assigned_targets and overwrite
silently (see the counterexample). -/
theorem C2_amended_menu_confirms_overwrite (already : List (String × String))
    (ins : List (Option String)) (t : String)
    (htgt : (menuLoop already ins).target = some t)
    (hclaimed : (alookup already t).isSome = true) :
    (menuLoop already ins).confirmed = true :=
  ((menuLoop_spec already ins).1 t htgt).2 hclaimed

/-- C2 amended witness: a numeric choice of the already-claimed column 2
followed by the confirmation "y" returns confirmed. -/
theorem C2_amended_menu_confirms_overwrite_witness :
    (menuLoop [("Requirement ID", "id")] [some "2", some "y"]).confirmed = true :=
  C2_amended_menu_confirms_overwrite [("Requirement ID", "id")]
    [some "2", some "y"] "Requirement ID" (by decide) (by decide)

/-! Unfolding lemmas for the unmapped-column loop. -/

theorem unmappedLoop_cached_skip (cached : List (String × String)) (src : String)
    (srcs : List String) (assigned : List (String × String)) (ins : List (Option String))
    (ct : String) (h : alookup cached src = some ct) (h1 : ct = "skip" ∨ ct = "") :
    unmappedLoop cached (src :: srcs) assigned ins =
      ⟨.skipCol src :: (unmappedLoop cached srcs assigned ins).events,
       (src, "skip") :: (unmappedLoop cached srcs assigned ins).userMappings,
       (unmappedLoop cached srcs assigned ins).prompts⟩ := by
  rw [unmappedLoop, h]
  simp [h1]

theorem unmappedLoop_cached_assign (cached : List (String × String)) (src : String)
    (srcs : List String) (assigned : List (String × String)) (ins : List (Option String))
    (ct : String) (h : alookup cached src = some ct) (h1 : ¬(ct = "skip" ∨ ct = ""))
    (h2 : ct ∈ COLUMNS) :
    unmappedLoop cached (src :: srcs) assigned ins =
      ⟨.assign ct src false :: (unmappedLoop cached srcs (dinsert assigned ct src) ins).events,
       (src, ct) :: (unmappedLoop cached srcs (dinsert assigned ct src) ins).userMappings,
       (unmappedLoop cached srcs (dinsert assigned ct src) ins).prompts⟩ := by
  rw [unmappedLoop, h]
  simp [h1, h2]

theorem unmappedLoop_menu_of_miss (cached : List (String × String)) (src : String)
    (srcs : List String) (assigned : List (String × String)) (ins : List (Option String))
    (h : alookup cached src = none) :
    unmappedLoop cached (src :: srcs) assigned ins =
      if (menuLoop assigned ins).skipped then
        ⟨.skipCol src ::
           (unmappedLoop cached srcs assigned (menuLoop assigned ins).rest).events,
         (src, "skip") ::
           (unmappedLoop cached srcs assigned (menuLoop assigned ins).rest).userMappings,
         (menuLoop assigned ins).prompts +
           (unmappedLoop cached srcs assigned (menuLoop assigned ins).rest).prompts⟩
      else
        ⟨.assign ((menuLoop assigned ins).target.getD "") src (menuLoop assigned ins).confirmed ::
           (unmappedLoop cached srcs
             (dinsert assigned ((menuLoop assigned ins).target.getD "") src)
             (menuLoop assigned ins).rest).events,
         (src, (menuLoop assigned ins).target.getD "") ::
           (unmappedLoop cached srcs
             (dinsert assigned ((menuLoop assigned ins).target.getD "") src)
             (menuLoop assigned ins).rest).userMappings,
         (menuLoop assigned ins).prompts +
           (unmappedLoop cached srcs
             (dinsert assigned ((menuLoop assigned ins).target.getD "") src)
             (menuLoop assigned ins).rest).prompts⟩ := by
  rw [unmappedLoop, h]

theorem unmappedLoop_menu_of_fallthrough (cached : List (String × String)) (src : String)
    (srcs : List String) (assigned : List (String × String)) (ins : List (Option String))
    (ct : String) (h : alookup cached src = some ct) (h1 : ¬(ct = "skip" ∨ ct = ""))
    (h2 : ct ∉ COLUMNS) :
    unmappedLoop cached (src :: srcs) assigned ins =
      if (menuLoop assigned ins).skipped then
        ⟨.skipCol src ::
           (unmappedLoop cached srcs assigned (menuLoop assigned ins).rest).events,
         (src, "skip") ::
           (unmappedLoop cached srcs assigned (menuLoop assigned ins).rest).userMappings,
         (menuLoop assigned ins).prompts +
           (unmappedLoop cached srcs assigned (menuLoop assigned ins).rest).prompts⟩
      else
        ⟨.assign ((menuLoop assigned ins).target.getD "") src (menuLoop assigned ins).confirmed ::
           (unmappedLoop cached srcs
             (dinsert assigned ((menuLoop assigned ins).target.getD "") src)
             (menuLoop assigned ins).rest).events,
         (src, (menuLoop assigned ins).target.getD "") ::
           (unmappedLoop cached srcs
             (dinsert assigned ((menuLoop assigned ins).target.getD "") src)
             (menuLoop assigned ins).rest).userMappings,
         (menuLoop assigned ins).prompts +
           (unmappedLoop cached srcs
             (dinsert assigned ((menuLoop assigned ins).target.getD "") src)
             (menuLoop assigned ins).rest).prompts⟩ := by
  rw [unmappedLoop, h]
  simp [h1, h2]

/-! Assignment targets are always canonical columns. -/

theorem column_mapping_values (k v : String)
    (h : alookup COLUMN_MAPPING k = some v) : v ∈ COLUMNS := by
  have hm := alookup_mem _ _ _ h
  simp only [COLUMN_MAPPING, List.map_cons, List.map_nil, List.mem_cons,
    List.not_mem_nil, or_false] at hm
  simp only [COLUMNS, List.mem_cons, List.not_mem_nil, or_false]
  tauto

theorem assignSeq_append (a b : List MapEvent) :
    assignSeq (a ++ b) = assignSeq a ++ assignSeq b := by
  simp [assignSeq]

theorem autoPass_targets_mem (hs : List String) :
    ∀ p ∈ assignSeq (autoPass hs).2, p.1 ∈ COLUMNS := by
  induction hs with
  | nil =>
    intro p hp
    simp [autoPass, assignSeq] at hp
  | cons h t ih =>
    intro p hp
    cases hl : alookup COLUMN_MAPPING h with
    | some tgt =>
      rw [autoPass, hl] at hp
      simp only [assignSeq, List.filterMap_cons] at hp
      rcases List.mem_cons.mp hp with rfl | hp2
      · exact column_mapping_values _ _ hl
      · exact ih p (by simpa [assignSeq] using hp2)
    | none =>
      rw [autoPass, hl] at hp
      exact ih p hp

theorem unmappedLoop_targets_mem (cached : List (String × String)) (srcs : List String) :
    ∀ (assigned : List (String × String)) (ins : List (Option String)),
      ∀ p ∈ assignSeq (unmappedLoop cached srcs assigned ins).events, p.1 ∈ COLUMNS := by
  induction srcs with
  | nil =>
    intro assigned ins p hp
    simp [unmappedLoop, assignSeq] at hp
  | cons src srcs ih =>
    intro assigned ins p hp
    cases hl : alookup cached src with
    | some ct =>
      by_cases h1 : ct = "skip" ∨ ct = ""
      · rw [unmappedLoop_cached_skip cached src srcs assigned ins ct hl h1] at hp
        simp only [assignSeq, List.filterMap_cons] at hp
        exact ih assigned ins p (by simpa [assignSeq] using hp)
      · by_cases h2 : ct ∈ COLUMNS
        · rw [unmappedLoop_cached_assign cached src srcs assigned ins ct hl h1 h2] at hp
          simp only [assignSeq, List.filterMap_cons] at hp
          rcases List.mem_cons.mp hp with rfl | hp2
          · exact h2
          · exact ih _ ins p (by simpa [assignSeq] using hp2)
        · rw [unmappedLoop_menu_of_fallthrough cached src srcs assigned ins ct hl h1 h2] at hp
          by_cases hsk : (menuLoop assigned ins).skipped
          · rw [if_pos hsk] at hp
            simp only [assignSeq, List.filterMap_cons] at hp
            exact ih assigned _ p (by simpa [assignSeq] using hp)
          · rw [if_neg hsk] at hp
            simp only [assignSeq, List.filterMap_cons] at hp
            rcases List.mem_cons.mp hp with rfl | hp2
            · obtain ⟨t, ht⟩ := (menuLoop_spec assigned ins).2 (by simpa using hsk)
              have := ((menuLoop_spec assigned ins).1 t ht).1
              simpa [ht] using this
            · exact ih _ _ p (by simpa [assignSeq] using hp2)
    | none =>
      rw [unmappedLoop_menu_of_miss cached src srcs assigned ins hl] at hp
      by_cases hsk : (menuLoop assigned ins).skipped
      · rw [if_pos hsk] at hp
        simp only [assignSeq, List.filterMap_cons] at hp
        exact ih assigned _ p (by simpa [assignSeq] using hp)
      · rw [if_neg hsk] at hp
        simp only [assignSeq, List.filterMap_cons] at hp
        rcases List.mem_cons.mp hp with rfl | hp2
        · obtain ⟨t, ht⟩ := (menuLoop_spec assigned ins).2 (by simpa using hsk)
          have := ((menuLoop_spec assigned ins).1 t ht).1
          simpa [ht] using this
        · exact ih _ _ p (by simpa [assignSeq] using hp2)

theorem map_columns_targets_mem (df : STable) (cached : List (String × String))
    (ins : List (Option String)) :
    ∀ p ∈ assignSeq (map_columns df cached ins).events, p.1 ∈ COLUMNS := by
  intro p hp
  simp only [map_columns, assignSeq_append, List.mem_append] at hp
  rcases hp with hp | hp
  · exact autoPass_targets_mem _ p hp
  · exact unmappedLoop_targets_mem _ _ _ _ p hp

/-! Cell-level structure of the mapped frame and the reconciliation output. -/

theorem COLUMNS_nodup : COLUMNS.Nodup := by decide

theorem lastAssign_eq_none (evs : List MapEvent) (c : String)
    (h : c ∉ (assignSeq evs).map Prod.fst) : lastAssign evs c = none := by
  unfold lastAssign
  suffices H : ∀ (l : List (String × String)) (acc : Option String),
      c ∉ l.map Prod.fst → acc = none →
      l.foldl (fun acc p => if p.1 = c then some p.2 else acc) acc = none by
    exact H _ none h rfl
  intro l
  induction l with
  | nil =>
    intro acc _ ha
    simpa using ha
  | cons p t ih =>
    intro acc hc ha
    rw [List.map_cons, List.mem_cons] at hc
    push_neg at hc
    simp only [List.foldl_cons]
    rw [if_neg fun he => hc.1 he.symm]
    exact ih acc hc.2 ha

theorem getD_replicate_none (n i : Nat) :
    (List.replicate n (none : Cell)).getD i none = none := by
  rcases getD_mem_or (List.replicate n (none : Cell)) i none with h | h
  · exact h
  · exact List.eq_of_mem_replicate h

theorem dictGet_reqOfRow (t : STable) (i : Nat) (c : String) (hc : c ∈ COLUMNS) :
    dictGet (reqOfRow t i) c = rowGet t c i := by
  fin_cases hc <;> rfl

theorem alookup_buildMapped (df : STable) (evs : List MapEvent) (c : String)
    (hc : c ∈ COLUMNS) :
    alookup (buildMappedTable df evs) c = some
      (match lastAssign evs c with
       | some src => (colOf df src).map fun cell => some (clean_cell_value cell)
       | none =>
         if assignSeq evs ≠ [] then List.replicate (nRows df) (none : Cell) else []) :=
  alookup_map_self _ COLUMNS c COLUMNS_nodup hc

theorem rowGet_buildMapped_once (df : STable) (evs : List MapEvent) (c : String)
    (hc : c ∈ COLUMNS) (i : Nat) :
    OnceCleaned (rowGet (buildMappedTable df evs) c i) := by
  unfold rowGet
  rw [alookup_buildMapped df evs c hc]
  cases hla : lastAssign evs c with
  | some src =>
    simp only
    rcases getD_mem_or ((colOf df src).map fun cell => some (clean_cell_value cell)) i none
      with h | h
    · exact Or.inl h
    · obtain ⟨x, _, hxx⟩ := List.mem_map.mp h
      exact Or.inr (Or.inr ⟨x, hxx.symm⟩)
  | none =>
    simp only
    split_ifs
    · exact Or.inl (getD_replicate_none _ _)
    · exact Or.inl rfl

theorem rowGet_buildMapped_unassigned (df : STable) (evs : List MapEvent) (c : String)
    (hc : c ∈ COLUMNS) (h : lastAssign evs c = none) (i : Nat) :
    rowGet (buildMappedTable df evs) c i = none := by
  unfold rowGet
  rw [alookup_buildMapped df evs c hc, h]
  simp only
  split_ifs
  · exact getD_replicate_none _ _
  · rfl

theorem map_columns_table (df : STable) (cached : List (String × String))
    (ins : List (Option String)) :
    (map_columns df cached ins).table
      = buildMappedTable df (map_columns df cached ins).events := rfl

theorem colN_reconcile (df : STable) (cached : List (String × String))
    (ins : List (Option String)) (c : String) (hc : c ∈ COLUMNS) :
    colN (reconcile df cached ins) c =
      (if c = "Compliance" then
        (((dataframe_to_requirements
            (map_columns (standardize_columns df) cached ins).table).map
          fun r => dictGet r c).map clean_cell_value).map
            fun s => normalize_compliance (some s)
      else
        ((dataframe_to_requirements
            (map_columns (standardize_columns df) cached ins).table).map
          fun r => dictGet r c).map clean_cell_value) := by
  unfold reconcile colN normalize_dataframe
  rw [alookup_map_self _ COLUMNS c COLUMNS_nodup hc]
  simp only [Option.getD_some]
  unfold normCol
  rw [show alookup (requirements_to_dataframe (dataframe_to_requirements
        (map_columns (standardize_columns df) cached ins).table)) c
      = some ((dataframe_to_requirements
          (map_columns (standardize_columns df) cached ins).table).map
            fun r => dictGet r c) from
    alookup_map_self _ COLUMNS c COLUMNS_nodup hc]

/-- C1: for every input table (with well-formed, duplicate-free standardized
headers — pandas raises on duplicated column labels), whatever the cache
contents and operator responses, the reconciliation output has exactly the
16 canonical columns in the fixed canonical order; every assignment made by
the run targets a canonical column; and every canonical column never
populated by an assignment consists entirely of empty strings. -/
theorem C1_column_completeness (df : STable) (cached : List (String × String))
    (ins : List (Option String))
    (hnd : (headersOf (standardize_columns df)).Nodup) :
    (reconcile df cached ins).map Prod.fst = COLUMNS
    ∧ (∀ p ∈ assignSeq (map_columns (standardize_columns df) cached ins).events,
        p.1 ∈ COLUMNS)
    ∧ ∀ c ∈ COLUMNS,
        c ∉ (assignSeq (map_columns (standardize_columns df) cached ins).events).map
            Prod.fst →
        ∀ s ∈ colN (reconcile df cached ins) c, s = "" := by
  refine ⟨?_, map_columns_targets_mem _ _ _, ?_⟩
  · simp [reconcile, normalize_dataframe, List.map_map, Function.comp_def]
  · intro c hc hna s hs
    rw [colN_reconcile df cached ins c hc] at hs
    have hcell : ∀ r ∈ dataframe_to_requirements
        (map_columns (standardize_columns df) cached ins).table,
        clean_cell_value (dictGet r c) = "" := by
      intro r hr
      obtain ⟨i, _, rfl⟩ := List.mem_map.mp hr
      rw [dictGet_reqOfRow _ _ c hc, map_columns_table,
        rowGet_buildMapped_unassigned _ _ c hc (lastAssign_eq_none _ c hna)]
      rfl
    by_cases hcomp : c = "Compliance"
    · rw [if_pos hcomp] at hs
      simp only [List.map_map, List.mem_map] at hs
      obtain ⟨r, hr, hsr⟩ := hs
      rw [← hsr]
      simp only [Function.comp_def, hcell r hr]
      rfl
    · rw [if_neg hcomp] at hs
      simp only [List.map_map, List.mem_map] at hs
      obtain ⟨r, hr, hsr⟩ := hs
      rw [← hsr]
      simp only [Function.comp_def]
      exact hcell r hr

/-- C1 witness: the completeness statement instantiated on a concrete
two-column table where only Title is assigned. -/
theorem C1_column_completeness_witness :
    (reconcile [("title", [some "a"]), ("junk", [some "b"])] [] [some "skip"]).map
        Prod.fst = COLUMNS
    ∧ (∀ p ∈ assignSeq (map_columns
          (standardize_columns [("title", [some "a"]), ("junk", [some "b"])])
          [] [some "skip"]).events, p.1 ∈ COLUMNS)
    ∧ ∀ c ∈ COLUMNS,
        c ∉ (assignSeq (map_columns
            (standardize_columns [("title", [some "a"]), ("junk", [some "b"])])
            [] [some "skip"]).events).map Prod.fst →
        ∀ s ∈ colN (reconcile [("title", [some "a"]), ("junk", [some "b"])]
            [] [some "skip"]) c, s = "" :=
  C1_column_completeness [("title", [some "a"]), ("junk", [some "b"])] []
    [some "skip"] (by decide)

/-! Cache round-trip. -/

theorem mem_columns_ne (t : String) (h : t ∈ COLUMNS) : ¬(t = "skip" ∨ t = "") := by
  rintro (rfl | rfl) <;> revert h <;> decide

theorem autoPass_unmapped_sublist (hs : List String) : List.Sublist (autoPass hs).1 hs := by
  induction hs with
  | nil => simp [autoPass]
  | cons h t ih =>
    cases hl : alookup COLUMN_MAPPING h with
    | some tgt =>
      simp only [autoPass, hl]
      exact ih.cons h
    | none =>
      simp only [autoPass, hl]
      exact ih.cons₂ h

theorem buildMappedTable_congr (df : STable) (evs1 evs2 : List MapEvent)
    (h : assignSeq evs1 = assignSeq evs2) :
    buildMappedTable df evs1 = buildMappedTable df evs2 := by
  unfold buildMappedTable lastAssign
  rw [h]

/-- Replaying the unmapped-column loop against the user mappings recorded by
a previous run reproduces the same assignment sequence with zero prompts:
every previously processed column has a cache entry ('skip' or a canonical
column), so the cached branch fires for every column. -/
theorem unmappedLoop_replay (srcs : List String) :
    ∀ (c0 cache assigned assigned2 : List (String × String))
      (ins ins2 : List (Option String)),
      srcs.Nodup →
      (∀ s ∈ srcs,
        alookup cache s = alookup (unmappedLoop c0 srcs assigned ins).userMappings s) →
      assignSeq (unmappedLoop cache srcs assigned2 ins2).events
          = assignSeq (unmappedLoop c0 srcs assigned ins).events
        ∧ (unmappedLoop cache srcs assigned2 ins2).prompts = 0 := by
  induction srcs with
  | nil =>
    intro c0 cache assigned assigned2 ins ins2 _ _
    simp [unmappedLoop, assignSeq]
  | cons src srcs ih =>
    intro c0 cache assigned assigned2 ins ins2 hnd hag
    have hsrc_mem : src ∈ src :: srcs := by simp
    obtain ⟨hnsrc, hndt⟩ := List.nodup_cons.mp hnd
    have hag_tail : ∀ (tailum : List (String × String)) (d : String),
        (unmappedLoop c0 (src :: srcs) assigned ins).userMappings
          = (src, d) :: tailum →
        ∀ s ∈ srcs, alookup cache s = alookup tailum s := by
      intro tailum d hum s hsm
      rw [hag s (by simp [hsm]), hum]
      have hne : src ≠ s := fun he => hnsrc (he ▸ hsm)
      simp [alookup, hne]
    cases hl : alookup c0 src with
    | some ct =>
      by_cases h1 : ct = "skip" ∨ ct = ""
      · have hrw1 := unmappedLoop_cached_skip c0 src srcs assigned ins ct hl h1
        have hc : alookup cache src = some "skip" := by
          rw [hag src hsrc_mem, hrw1]
          simp [alookup]
        have hrw2 := unmappedLoop_cached_skip cache src srcs assigned2 ins2 "skip" hc
          (Or.inl rfl)
        obtain ⟨he, hp⟩ := ih c0 cache assigned assigned2 ins ins2 hndt
          (hag_tail _ _ (by rw [hrw1]))
        rw [hrw1, hrw2]
        constructor
        · simpa [assignSeq] using he
        · simpa using hp
      · by_cases h2 : ct ∈ COLUMNS
        · have hrw1 := unmappedLoop_cached_assign c0 src srcs assigned ins ct hl h1 h2
          have hc : alookup cache src = some ct := by
            rw [hag src hsrc_mem, hrw1]
            simp [alookup]
          have hrw2 := unmappedLoop_cached_assign cache src srcs assigned2 ins2 ct hc h1 h2
          obtain ⟨he, hp⟩ := ih c0 cache (dinsert assigned ct src)
            (dinsert assigned2 ct src) ins ins2 hndt (hag_tail _ _ (by rw [hrw1]))
          rw [hrw1, hrw2]
          constructor
          · simpa [assignSeq] using he
          · simpa using hp
        · have hrw1 := unmappedLoop_menu_of_fallthrough c0 src srcs assigned ins ct hl h1 h2
          by_cases hsk : (menuLoop assigned ins).skipped
          · rw [if_pos hsk] at hrw1
            have hc : alookup cache src = some "skip" := by
              rw [hag src hsrc_mem, hrw1]
              simp [alookup]
            have hrw2 := unmappedLoop_cached_skip cache src srcs assigned2 ins2 "skip" hc
              (Or.inl rfl)
            obtain ⟨he, hp⟩ := ih c0 cache assigned assigned2 (menuLoop assigned ins).rest
              ins2 hndt (hag_tail _ _ (by rw [hrw1]))
            rw [hrw1, hrw2]
            constructor
            · simpa [assignSeq] using he
            · simpa using hp
          · rw [if_neg hsk] at hrw1
            obtain ⟨t, ht⟩ := (menuLoop_spec assigned ins).2 (by simpa using hsk)
            have htmem : t ∈ COLUMNS := ((menuLoop_spec assigned ins).1 t ht).1
            have hgetD : (menuLoop assigned ins).target.getD "" = t := by
              rw [ht]
              rfl
            rw [hgetD] at hrw1
            have hc : alookup cache src = some t := by
              rw [hag src hsrc_mem, hrw1]
              simp [alookup]
            have hrw2 := unmappedLoop_cached_assign cache src srcs assigned2 ins2 t hc
              (mem_columns_ne t htmem) htmem
            obtain ⟨he, hp⟩ := ih c0 cache (dinsert assigned t src)
              (dinsert assigned2 t src) (menuLoop assigned ins).rest ins2 hndt
              (hag_tail _ _ (by rw [hrw1]))
            rw [hrw1, hrw2]
            constructor
            · simpa [assignSeq] using he
            · simpa using hp
    | none =>
      have hrw1 := unmappedLoop_menu_of_miss c0 src srcs assigned ins hl
      by_cases hsk : (menuLoop assigned ins).skipped
      · rw [if_pos hsk] at hrw1
        have hc : alookup cache src = some "skip" := by
          rw [hag src hsrc_mem, hrw1]
          simp [alookup]
        have hrw2 := unmappedLoop_cached_skip cache src srcs assigned2 ins2 "skip" hc
          (Or.inl rfl)
        obtain ⟨he, hp⟩ := ih c0 cache assigned assigned2 (menuLoop assigned ins).rest
          ins2 hndt (hag_tail _ _ (by rw [hrw1]))
        rw [hrw1, hrw2]
        constructor
        · simpa [assignSeq] using he
        · simpa using hp
      · rw [if_neg hsk] at hrw1
        obtain ⟨t, ht⟩ := (menuLoop_spec assigned ins).2 (by simpa using hsk)
        have htmem : t ∈ COLUMNS := ((menuLoop_spec assigned ins).1 t ht).1
        have hgetD : (menuLoop assigned ins).target.getD "" = t := by
          rw [ht]
          rfl
        rw [hgetD] at hrw1
        have hc : alookup cache src = some t := by
          rw [hag src hsrc_mem, hrw1]
          simp [alookup]
        have hrw2 := unmappedLoop_cached_assign cache src srcs assigned2 ins2 t hc
          (mem_columns_ne t htmem) htmem
        obtain ⟨he, hp⟩ := ih c0 cache (dinsert assigned t src)
          (dinsert assigned2 t src) (menuLoop assigned ins).rest ins2 hndt
          (hag_tail _ _ (by rw [hrw1]))
        rw [hrw1, hrw2]
        constructor
        · simpa [assignSeq] using he
        · simpa using hp

/-- C8: re-running reconciliation on the same table with the column
mappings saved by a previous run (the cache entry for the same file
fingerprint) issues zero interactive prompts — every previously unmapped
header hits its cached decision ('skip' entries dropped, column entries
applied without re-confirmation) — and produces output identical to the
first run. -/
theorem C8_cache_round_trip (df : STable) (c0 : List (String × String))
    (ins ins2 : List (Option String))
    (hnd : (headersOf (standardize_columns df)).Nodup) :
    (map_columns (standardize_columns df)
        (map_columns (standardize_columns df) c0 ins).userMappings ins2).prompts = 0
    ∧ reconcile df (map_columns (standardize_columns df) c0 ins).userMappings ins2
        = reconcile df c0 ins := by
  have hndu : (autoPass (headersOf (standardize_columns df))).1.Nodup :=
    hnd.sublist (autoPass_unmapped_sublist _)
  have hreplay := unmappedLoop_replay (autoPass (headersOf (standardize_columns df))).1
    c0 (map_columns (standardize_columns df) c0 ins).userMappings
    (assignedOfEvents (autoPass (headersOf (standardize_columns df))).2)
    (assignedOfEvents (autoPass (headersOf (standardize_columns df))).2)
    ins ins2 hndu (fun s _ => rfl)
  have htab : (map_columns (standardize_columns df)
      (map_columns (standardize_columns df) c0 ins).userMappings ins2).table
      = (map_columns (standardize_columns df) c0 ins).table := by
    apply buildMappedTable_congr
    rw [assignSeq_append, assignSeq_append, hreplay.1]
  refine ⟨hreplay.2, ?_⟩
  unfold reconcile
  rw [htab]

/-- C8 witness: the round trip on a concrete table with one automatically
mapped column and one interactively skipped column. -/
theorem C8_cache_round_trip_witness :
    (map_columns (standardize_columns [("title", [some "a"]), ("zzz", [some "b"])])
        (map_columns (standardize_columns [("title", [some "a"]), ("zzz", [some "b"])])
          [] [some "skip"]).userMappings []).prompts = 0
    ∧ reconcile [("title", [some "a"]), ("zzz", [some "b"])]
        (map_columns (standardize_columns [("title", [some "a"]), ("zzz", [some "b"])])
          [] [some "skip"]).userMappings []
        = reconcile [("title", [some "a"]), ("zzz", [some "b"])] [] [some "skip"] :=
  C8_cache_round_trip [("title", [some "a"]), ("zzz", [some "b"])] [] [some "skip"] []
    (by decide)

/-! Idempotence of the reconciliation pipeline. -/

theorem reconcile_cells_cleanFixed (df : STable) (cached : List (String × String))
    (ins : List (Option String)) (c : String) (hc : c ∈ COLUMNS) :
    (colN (reconcile df cached ins) c).length
        = (dataframe_to_requirements
            (map_columns (standardize_columns df) cached ins).table).length
    ∧ ∀ s ∈ colN (reconcile df cached ins) c,
        CleanFixed s ∧ (c = "Compliance" → normalize_compliance (some s) = s) := by
  have honce : ∀ r ∈ dataframe_to_requirements
      (map_columns (standardize_columns df) cached ins).table,
      OnceCleaned (dictGet r c) := by
    intro r hr
    obtain ⟨i, _, rfl⟩ := List.mem_map.mp hr
    rw [dictGet_reqOfRow _ _ c hc, map_columns_table]
    exact rowGet_buildMapped_once _ _ c hc i
  rw [colN_reconcile df cached ins c hc]
  by_cases hcomp : c = "Compliance"
  · rw [if_pos hcomp]
    refine ⟨by simp, ?_⟩
    intro s hs
    simp only [List.map_map, List.mem_map, Function.comp_def] at hs
    obtain ⟨r, hr, hsr⟩ := hs
    have hcf : CleanFixed (clean_cell_value (dictGet r c)) :=
      cleanFixed_of_once _ (honce r hr)
    rw [← hsr]
    exact ⟨cleanFixed_normalize_compliance _ hcf,
      fun _ => normalize_compliance_idem _⟩
  · rw [if_neg hcomp]
    refine ⟨by simp, ?_⟩
    intro s hs
    simp only [List.map_map, List.mem_map, Function.comp_def] at hs
    obtain ⟨r, hr, hsr⟩ := hs
    rw [← hsr]
    exact ⟨cleanFixed_of_once _ (honce r hr), fun hqc => absurd hqc hcomp⟩

/-- The assignment events of the automatic pass on the standardized
canonical headers: each canonical column is claimed by its own
standardized name. -/
def canonicalEvents : List MapEvent :=
  COLUMNS.map fun c => .assign c (standardizeHeader c) false

theorem autoPass_canonical :
    autoPass (COLUMNS.map standardizeHeader) = ([], canonicalEvents) := by
  decide

theorem stdHeaders_nodup : (COLUMNS.map standardizeHeader).Nodup := by decide

theorem lastAssign_canonical (c : String) (hc : c ∈ COLUMNS) :
    lastAssign canonicalEvents c = some (standardizeHeader c) := by
  fin_cases hc <;> rfl

theorem std_asTable (g : String → List String) :
    standardize_columns (asTable (COLUMNS.map fun c => (c, g c)))
      = COLUMNS.map fun c => (standardizeHeader c, (g c).map some) := by
  simp [standardize_columns, asTable, List.map_map, Function.comp_def]

theorem headersOf_map_key (σ : String → String) (f : String → List Cell) :
    headersOf (COLUMNS.map fun c => (σ c, f c)) = COLUMNS.map σ := by
  simp [headersOf, List.map_map, Function.comp_def]

theorem map_columns_canonical (g : String → List String)
    (cached : List (String × String)) (ins : List (Option String)) :
    map_columns (COLUMNS.map fun c => (standardizeHeader c, (g c).map some)) cached ins
      = ⟨canonicalEvents, [], 0,
         buildMappedTable (COLUMNS.map fun c => (standardizeHeader c, (g c).map some))
           canonicalEvents⟩ := by
  unfold map_columns
  rw [headersOf_map_key, autoPass_canonical]
  simp [unmappedLoop]

theorem buildMapped_canonical (g : String → List String)
    (hcf : ∀ c ∈ COLUMNS, ∀ s ∈ g c, clean_cell_value (some s) = s) :
    buildMappedTable (COLUMNS.map fun c => (standardizeHeader c, (g c).map some))
        canonicalEvents
      = COLUMNS.map fun c => (c, (g c).map some) := by
  unfold buildMappedTable
  apply List.map_congr_left
  intro c hc
  rw [lastAssign_canonical c hc]
  simp only
  congr 1
  rw [show colOf (COLUMNS.map fun c => (standardizeHeader c, (g c).map some))
        (standardizeHeader c) = (g c).map some from by
    unfold colOf
    rw [alookup_map_key standardizeHeader _ COLUMNS c stdHeaders_nodup hc]
    rfl]
  rw [List.map_map]
  apply List.map_congr_left
  intro s hsm
  simp [Function.comp_def, hcf c hc s hsm]

theorem transpose_canonical (g : String → List String) (n : Nat)
    (hlen : ∀ c ∈ COLUMNS, (g c).length = n) :
    requirements_to_dataframe (dataframe_to_requirements
        (COLUMNS.map fun c => (c, (g c).map some)))
      = COLUMNS.map fun c => (c, (g c).map some) := by
  unfold requirements_to_dataframe
  apply List.map_congr_left
  intro c hc
  congr 1
  unfold dataframe_to_requirements
  rw [List.map_map]
  have hn : nRows (COLUMNS.map fun c => (c, (g c).map some)) = n := by
    have hlp := hlen "Parent ID" (by decide)
    simp [COLUMNS, nRows, hlp]
  rw [hn]
  have hrow : ∀ i, dictGet (reqOfRow (COLUMNS.map fun c => (c, (g c).map some)) i) c
      = ((g c).map some).getD i none := by
    intro i
    rw [dictGet_reqOfRow _ _ c hc]
    unfold rowGet
    rw [alookup_map_self _ COLUMNS c COLUMNS_nodup hc]
  calc (List.range n).map (fun i =>
        dictGet (reqOfRow (COLUMNS.map fun c => (c, (g c).map some)) i) c)
      = (List.range n).map (fun i => ((g c).map some).getD i none) :=
        List.map_congr_left fun i _ => hrow i
    _ = (g c).map some := by
        have hlc : n = ((g c).map some).length := by simp [hlen c hc]
        rw [hlc]
        exact range_map_getD _ _

theorem normalize_canonical (g : String → List String)
    (hcf : ∀ c ∈ COLUMNS, ∀ s ∈ g c, clean_cell_value (some s) = s)
    (hcomp : ∀ s ∈ g "Compliance", normalize_compliance (some s) = s) :
    normalize_dataframe (COLUMNS.map fun c => (c, (g c).map some))
      = COLUMNS.map fun c => (c, g c) := by
  unfold normalize_dataframe
  apply List.map_congr_left
  intro c hc
  unfold normCol
  rw [alookup_map_self _ COLUMNS c COLUMNS_nodup hc]
  simp only
  have hraw : ((g c).map some).map clean_cell_value = g c := by
    rw [List.map_map]
    have hgc : (g c).map (clean_cell_value ∘ some) = (g c).map id :=
      List.map_congr_left fun s hsm => hcf c hc s hsm
    simpa using hgc
  by_cases hcm : c = "Compliance"
  · rw [if_pos hcm, hraw]
    congr 1
    subst hcm
    have hcc : (g "Compliance").map (fun s => normalize_compliance (some s))
        = (g "Compliance").map id :=
      List.map_congr_left fun s hsm => hcomp s hsm
    simpa using hcc
  · rw [if_neg hcm, hraw]

/-- Re-reconciling a table whose headers are exactly the canonical columns
and whose cells are fixed points of cleaning (and, for Compliance, of
compliance normalization) returns the table unchanged. -/
theorem reconcile_fixpoint (g : String → List String) (n : Nat)
    (cached : List (String × String)) (ins : List (Option String))
    (hlen : ∀ c ∈ COLUMNS, (g c).length = n)
    (hcf : ∀ c ∈ COLUMNS, ∀ s ∈ g c, clean_cell_value (some s) = s)
    (hcomp : ∀ s ∈ g "Compliance", normalize_compliance (some s) = s) :
    reconcile (asTable (COLUMNS.map fun c => (c, g c))) cached ins
      = COLUMNS.map fun c => (c, g c) := by
  unfold reconcile
  rw [std_asTable g]
  rw [show (map_columns (COLUMNS.map fun c => (standardizeHeader c, (g c).map some))
        cached ins).table
      = buildMappedTable (COLUMNS.map fun c => (standardizeHeader c, (g c).map some))
          canonicalEvents from by rw [map_columns_canonical g cached ins]]
  rw [buildMapped_canonical g hcf]
  rw [transpose_canonical g n hlen]
  exact normalize_canonical g hcf hcomp

theorem colN_map_self (f : String → List String) (c : String) (hc : c ∈ COLUMNS) :
    colN (COLUMNS.map fun k => (k, f k)) c = f c := by
  unfold colN
  rw [alookup_map_self _ COLUMNS c COLUMNS_nodup hc]
  rfl

theorem reconcile_eta (df : STable) (cached : List (String × String))
    (ins : List (Option String)) :
    reconcile df cached ins
      = COLUMNS.map fun c => (c, colN (reconcile df cached ins) c) := by
  conv_lhs => unfold reconcile normalize_dataframe
  apply List.map_congr_left
  intro c hc
  rw [show colN (reconcile df cached ins) c
      = normCol (requirements_to_dataframe (dataframe_to_requirements
          (map_columns (standardize_columns df) cached ins).table)) c from
    colN_map_self _ c hc]

theorem headersOf_standardize (t : STable) :
    headersOf (standardize_columns t) = (headersOf t).map standardizeHeader := by
  simp [headersOf, standardize_columns, List.map_map, Function.comp_def]

theorem autoPass_unmapped_nil (hs : List String)
    (h : ∀ x ∈ hs, (alookup COLUMN_MAPPING x).isSome = true) :
    (autoPass hs).1 = [] := by
  induction hs with
  | nil => rfl
  | cons x t ih =>
    cases hl : alookup COLUMN_MAPPING x with
    | some tgt =>
      simp only [autoPass, hl]
      exact ih fun y hy => h y (by simp [hy])
    | none =>
      exfalso
      have hx := h x (by simp)
      rw [hl] at hx
      simp at hx

theorem map_columns_prompts_zero (df : STable) (cached : List (String × String))
    (ins : List (Option String)) (h : (autoPass (headersOf df)).1 = []) :
    (map_columns df cached ins).prompts = 0 := by
  simp only [map_columns]
  rw [h]
  simp [unmappedLoop]

/-- C7: on any table whose headers are exactly the 16 canonical column
names (in any order), every header auto-maps to itself in the automatic
pass, no column is left for cached/interactive resolution (zero prompts
are issued), and reconciling the output of a reconciliation again yields
the identical canonical table. -/
theorem C7_reconcile_idempotent (df : STable) (cached cached2 : List (String × String))
    (ins ins2 : List (Option String)) (hperm : (headersOf df).Perm COLUMNS) :
    (∀ h ∈ headersOf df, alookup COLUMN_MAPPING (standardizeHeader h) = some h)
    ∧ (autoPass (headersOf (standardize_columns df))).1 = []
    ∧ (map_columns (standardize_columns df) cached ins).prompts = 0
    ∧ reconcile (asTable (reconcile df cached ins)) cached2 ins2
        = reconcile df cached ins := by
  have hauto : ∀ h ∈ COLUMNS, alookup COLUMN_MAPPING (standardizeHeader h) = some h := by
    intro h hh
    fin_cases hh <;> decide
  have part1 : ∀ h ∈ headersOf df, alookup COLUMN_MAPPING (standardizeHeader h) = some h :=
    fun h hh => hauto h (hperm.mem_iff.mp hh)
  have part2 : (autoPass (headersOf (standardize_columns df))).1 = [] := by
    apply autoPass_unmapped_nil
    intro x hx
    rw [headersOf_standardize] at hx
    obtain ⟨h, hh, rfl⟩ := List.mem_map.mp hx
    rw [part1 h hh]
    rfl
  refine ⟨part1, part2, map_columns_prompts_zero _ _ _ part2, ?_⟩
  have key := reconcile_fixpoint (fun c => colN (reconcile df cached ins) c)
    (dataframe_to_requirements
      (map_columns (standardize_columns df) cached ins).table).length
    cached2 ins2
    (fun c hc => (reconcile_cells_cleanFixed df cached ins c hc).1)
    (fun c hc s hs => ((reconcile_cells_cleanFixed df cached ins c hc).2 s hs).1)
    (fun s hs =>
      ((reconcile_cells_cleanFixed df cached ins "Compliance" (by decide)).2 s hs).2 rfl)
  rw [← reconcile_eta df cached ins] at key
  exact key

/-- C7 witness: the idempotence statement instantiated on a one-row table
with the canonical headers (in a non-canonical order). -/
theorem C7_reconcile_idempotent_witness :
    (∀ h ∈ headersOf (("Requirement ID", [some "R1"]) ::
        (COLUMNS.filter fun c => c ≠ "Requirement ID").map fun c => (c, [some "v"])),
      alookup COLUMN_MAPPING (standardizeHeader h) = some h)
    ∧ (autoPass (headersOf (standardize_columns (("Requirement ID", [some "R1"]) ::
        (COLUMNS.filter fun c => c ≠ "Requirement ID").map fun c => (c, [some "v"]))))).1 = []
    ∧ (map_columns (standardize_columns (("Requirement ID", [some "R1"]) ::
        (COLUMNS.filter fun c => c ≠ "Requirement ID").map fun c => (c, [some "v"])))
        [] []).prompts = 0
    ∧ reconcile (asTable (reconcile (("Requirement ID", [some "R1"]) ::
        (COLUMNS.filter fun c => c ≠ "Requirement ID").map fun c => (c, [some "v"]))
        [] [])) [] []
        = reconcile (("Requirement ID", [some "R1"]) ::
            (COLUMNS.filter fun c => c ≠ "Requirement ID").map fun c => (c, [some "v"]))
            [] [] :=
  C7_reconcile_idempotent
    (("Requirement ID", [some "R1"]) ::
      (COLUMNS.filter fun c => c ≠ "Requirement ID").map fun c => (c, [some "v"]))
    [] [] [] [] (by decide)

end RMT
